import Mathlib

/-!
# Shallow embedding of the classroom-reservation core

This file embeds the core logic of the repository (`reservation_db.py`,
`waitlist_db.py`, `notification_db.py`, plus the cancellation route of
`main.py`) into Lean and proves the frozen claims about it.

Modelling conventions:
* A Python `time` object is a `Time` structure (hour, minute); Python
  validates `0 ≤ hour < 24` and `0 ≤ minute < 60` at construction, so the
  raw textual input of `_parse_time` is abstracted to a pair of naturals and
  `parseTime` performs the range validation that `time(hour, minute)` does.
* A calendar date is abstracted to its ordinal day number (`Nat`), matching
  the code's use of `date.toordinal`; the strict `YYYY-MM-DD` parse of
  `_parse_date` always succeeds on this abstract form.
* `datetime.now()` is a natural number of seconds since the epoch carried in
  an `Env`; `date.today()` is derived from it by integer division, as both
  come from the same wall clock.
* Python dicts are association lists `List (key × value)` in insertion
  order; `dict.values()` iteration is list order, deletion is `filter`.
* The `user_db` and `classroom_db` modules are not part of the given source;
  they are modelled from the spec (see `Env`).
-/

set_option maxHeartbeats 1000000

namespace AdminCompetition

/-- A clock time as stored in a Python `datetime.time`: hour and minute. -/
structure Time where
  hour : Nat
  minute : Nat
deriving DecidableEq, Repr

/-- `time_to_minutes` from `_is_time_overlap`: minutes since midnight. -/
def timeToMinutes (t : Time) : Nat := t.hour * 60 + t.minute

/-- Lexicographic strict order on times, matching Python `time` comparison. -/
def timeLt (a b : Time) : Bool :=
  a.hour < b.hour || (a.hour = b.hour && a.minute < b.minute)

/-- `datetime.combine(date, time)` flattened to seconds since the epoch. -/
def dtSec (d : Nat) (t : Time) : Nat := d * 86400 + t.hour * 3600 + t.minute * 60

/-- `_parse_time` / `time(hour, minute)`: the textual `HH:MM` input is
abstracted to the (hour, minute) pair; constructing `time` validates the
ranges and raises `ValueError` otherwise, which the callers surface as an
invalid-format failure. -/
def parseTime (raw : Nat × Nat) : Option Time :=
  if raw.1 < 24 ∧ raw.2 < 60 then some ⟨raw.1, raw.2⟩ else none

/-- Environment of a single store operation: the wall clock, and the two
collaborator directories that the core calls into.

Modelled from the spec: `user_db.get_user` (module absent from the given
source) is "getUser(id) -> {role, ...} | none", used only to test whether an
id is a registered user, so it is modelled as membership in `users`;
`classroom_db.get_classroom` is "getClassroom(id) -> {name, ...}", used by
the core only for the display name, so it is modelled as the association
list `classrooms`. -/
structure Env where
  now : Nat
  users : List String
  classrooms : List (Nat × String)

/-- `date.today()`: the wall-clock day. -/
def Env.today (env : Env) : Nat := env.now / 86400

/-- A reservation record as stored in `RESERVATIONS`. -/
structure Reservation where
  user_id : String
  classroom_id : Nat
  date : Nat
  start_time : Time
  end_time : Time
  participants : List String
deriving DecidableEq, Repr

/-- The reservation store: the `RESERVATIONS` dict (insertion order) and the
`_next_id` counter. -/
structure ResDB where
  reservations : List (Nat × Reservation)
  next_id : Nat
deriving DecidableEq, Repr

/-- First-match association-list lookup, i.e. Python dict indexing. -/
def lookupA {α : Type} (k : Nat) : List (Nat × α) → Option α
  | [] => none
  | p :: ps => if p.1 = k then some p.2 else lookupA k ps

/-- Largest key of a dict, i.e. `max(d.keys()) if d else None`. -/
def maxKey {α : Type} (l : List (Nat × α)) : Option Nat :=
  match l.map Prod.fst with
  | [] => none
  | k :: ks => some (ks.foldl Nat.max k)

/-- `_is_past_datetime`: the reserved date-time is strictly before now. -/
def isPastDatetime (env : Env) (d : Nat) (t : Time) : Bool :=
  dtSec d t < env.now

/-- `_is_within_7_days`: `today <= date <= today + 6`. -/
def isWithin7Days (env : Env) (d : Nat) : Bool :=
  env.today ≤ d && d ≤ env.today + 6

/-- `_is_valid_time_slot`, translated check by check, including the
unreachable midnight special case after the `start >= end` rejection. -/
def isValidTimeSlot (s e : Time) : Bool :=
  if s.minute ≠ 0 ∨ e.minute ≠ 0 then false
  else if !timeLt s e then false
  else if e.hour = 0 ∧ e.minute = 0 then
    if s.hour = 23 then true else false
  else if e.hour ≤ s.hour then false
  else decide (0 < e.hour - s.hour)

/-- `_is_time_overlap`: half-open interval intersection on minutes. -/
def isTimeOverlap (s1 e1 s2 e2 : Time) : Bool :=
  timeToMinutes s1 < timeToMinutes e2 && timeToMinutes s2 < timeToMinutes e1

/-- Contribution of one stored reservation to `count_active_reservations`:
one for the owner branch, plus one for the participant branch. -/
def resContrib (env : Env) (uid : String) (r : Reservation) : Nat :=
  (if r.user_id = uid ∧ env.now ≤ dtSec r.date r.start_time then 1 else 0) +
  (if uid ∈ r.participants ∧ env.now ≤ dtSec r.date r.start_time then 1 else 0)

/-- `count_active_reservations`: loop over `RESERVATIONS.values()` summing
the owner-role and participant-role matches for future-dated records. -/
def countActiveReservations (env : Env) (db : ResDB) (uid : String) : Nat :=
  (db.reservations.map (fun p => resContrib env uid p.2)).sum

/-- Keep-first deduplication, the effect of `list(set(...))`. -/
def dedupKeepFirst : List String → List String
  | [] => []
  | x :: xs => x :: (dedupKeepFirst xs).filter (fun y => y ≠ x)

/-- Participant clean-up in `create_reservation`:
`list(set(p.strip() for p in participants if p.strip() and p.strip() != user_id))`. -/
def cleanParticipants (uid : String) (ps : List String) : List String :=
  dedupKeepFirst ((ps.map String.trim).filter (fun p => p ≠ "" && p ≠ uid))

/-- The distinct return messages of the store operations, one constructor
per textual message of the source, carrying the data the message
interpolates. -/
inductive Msg where
  | invalidTimeFormat (raw : Nat × Nat)
  | pastTime
  | outOfWindow
  | invalidSlot
  | quotaExceeded
  | participantQuotaExceeded (pid : String)
  | timeConflict (reqStart reqEnd : Nat × Nat) (conflicts : List (Time × Time × String))
  | invalidDateStr (s : String)
  | invalidTimeStr (s : String)
  | timeConflictS (reqStart reqEnd : String) (conflicts : List (String × String × String))
  | created
  | resNotFound
  | resNotOwner
  | resCancelled
  | wlQuotaExceeded
  | wlDuplicate
  | wlCreated (priority : Nat)
  | wlNotFound
  | wlNotOwner
  | wlCancelled
deriving DecidableEq, Repr

/-- First participant of the cleaned list that is a registered user and
already holds three active reservations (the loop in step 6 of
`create_reservation`). -/
def firstOverQuotaParticipant (env : Env) (db : ResDB) : List String → Option String
  | [] => none
  | p :: ps =>
    if p ∈ env.users ∧ 3 ≤ countActiveReservations env db p then some p
    else firstOverQuotaParticipant env db ps

/-- Step 7 of `create_reservation`: conflicting reservations of the same
classroom and date, in store order, each reported with its interval and
owner. -/
def conflictsFor (db : ResDB) (cid d : Nat) (s e : Time) : List (Time × Time × String) :=
  db.reservations.filterMap (fun p =>
    if p.2.classroom_id = cid ∧ p.2.date = d ∧
        isTimeOverlap s e p.2.start_time p.2.end_time then
      some (p.2.start_time, p.2.end_time, p.2.user_id)
    else none)

/-- `create_reservation`, translated check by check in source order.
Returns the `(success, message)` pair of the source together with the
resulting store. -/
def createReservation (env : Env) (uid : String) (cid : Nat) (d : Nat)
    (sRaw eRaw : Nat × Nat) (parts : Option (List String)) (db : ResDB) :
    (Bool × Msg) × ResDB :=
  match parseTime sRaw with
  | none => ((false, .invalidTimeFormat sRaw), db)
  | some s =>
    match parseTime eRaw with
    | none => ((false, .invalidTimeFormat eRaw), db)
    | some e =>
      if isPastDatetime env d s then ((false, .pastTime), db)
      else if !isWithin7Days env d then ((false, .outOfWindow), db)
      else if !isValidTimeSlot s e then ((false, .invalidSlot), db)
      else if 3 ≤ countActiveReservations env db uid then ((false, .quotaExceeded), db)
      else
        let ps := cleanParticipants uid (parts.getD [])
        match firstOverQuotaParticipant env db ps with
        | some p => ((false, .participantQuotaExceeded p), db)
        | none =>
          let confs := conflictsFor db cid d s e
          if confs ≠ [] then ((false, .timeConflict sRaw eRaw confs), db)
          else
            ((true, .created),
             { reservations := db.reservations ++ [(db.next_id, ⟨uid, cid, d, s, e, ps⟩)],
               next_id := db.next_id + 1 })

/-- `cancel_reservation`: owner-only deletion. -/
def cancelReservation (rid : Nat) (uid : String) (db : ResDB) : (Bool × Msg) × ResDB :=
  match lookupA rid db.reservations with
  | none => ((false, .resNotFound), db)
  | some r =>
    if r.user_id ≠ uid then ((false, .resNotOwner), db)
    else ((true, .resCancelled),
          { db with reservations := db.reservations.filter (fun p => p.1 ≠ rid) })

/-- `delete_reservation` (admin path): unconditional deletion by id. -/
def deleteReservation (rid : Nat) (db : ResDB) : Bool × ResDB :=
  match lookupA rid db.reservations with
  | none => (false, db)
  | some _ => (true, { db with reservations := db.reservations.filter (fun p => p.1 ≠ rid) })

/-! ## Raw-string layer

The source stores the `date`, `start_time` and `end_time` fields as the
exact strings received from the request and compares them as raw text in
the conflict scan (`reservation["date"] == reservation_date`,
reservation_db.py line 193), the waitlist duplicate/priority/group logic
(waitlist_db.py lines 82-95, 159-172, 248-260) and the promotion matcher
(waitlist_db.py line 200), while `_parse_date` (`strptime("%Y-%m-%d")`)
and `_parse_time` (`int` over `split(":")`) accept non-canonical aliases
such as "2025-1-15" and "14:0" that denote the same calendar day or clock
time as their padded forms. The value-level store above identifies such
aliases and is adequate only for properties that depend on parsed values;
the raw layer below keeps the strings, so those comparisons are embedded
exactly. -/

/-- Python `str.split(sep)` on character lists. -/
def splitOnChar (c : Char) : List Char → List (List Char)
  | [] => [[]]
  | x :: xs =>
    if x = c then [] :: splitOnChar c xs
    else
      match splitOnChar c xs with
      | [] => [[x]]
      | h :: t => (x :: h) :: t

/-- The digit-only fragment of Python `int`: a nonempty string of decimal
digits. (The source's `int` also tolerates surrounding whitespace, a sign
and digit-group underscores; no stored field or claim exercises those.) -/
def digitsToNat : List Char → Option Nat
  | [] => none
  | cs => cs.foldl (fun acc c =>
      match acc with
      | some a => if '0' ≤ c ∧ c ≤ '9' then some (a * 10 + (c.toNat - 48)) else none
      | none => none) (some 0)

/-- `_parse_time` on the raw string: `split(":")` must yield exactly two
integer fields and `time(hour, minute)` validates the ranges. Accepts
unpadded aliases: "14:0" parses like "14:00". -/
def parseTimeS (s : String) : Option Time :=
  match splitOnChar ':' s.toList with
  | [hcs, mcs] =>
    match digitsToNat hcs, digitsToNat mcs with
    | some h, some m => if h < 24 ∧ m < 60 then some ⟨h, m⟩ else none
    | _, _ => none
  | _ => none

/-- Gregorian leap year, as `datetime.date` uses. -/
def isLeapYear (y : Nat) : Bool := (y % 4 = 0 && y % 100 ≠ 0) || y % 400 = 0

/-- Days in a month of a given year. -/
def daysInMonth (y m : Nat) : Nat :=
  if m = 2 then (if isLeapYear y then 29 else 28)
  else if m = 4 ∨ m = 6 ∨ m = 9 ∨ m = 11 then 30
  else 31

/-- Cumulative day count before a month in a non-leap year. -/
def daysBeforeMonth : Nat → Nat
  | 2 => 31
  | 3 => 59
  | 4 => 90
  | 5 => 120
  | 6 => 151
  | 7 => 181
  | 8 => 212
  | 9 => 243
  | 10 => 273
  | 11 => 304
  | 12 => 334
  | _ => 0

/-- `date.toordinal()`: proleptic Gregorian ordinal with 0001-01-01 = 1. -/
def dateToOrdinal (y m d : Nat) : Nat :=
  (y - 1) * 365 + (y - 1) / 4 - (y - 1) / 100 + (y - 1) / 400 +
    daysBeforeMonth m + (if 2 < m ∧ isLeapYear y then 1 else 0) + d

/-- `_parse_date` via `strptime("%Y-%m-%d")` followed by the `date`
constructor: three dash-separated integer fields of at most 4/2/2 digits,
validated against the calendar, yielding the ordinal day. Accepts unpadded
aliases: "2025-1-15" parses to the same day as "2025-01-15". -/
def parseDateS (s : String) : Option Nat :=
  match splitOnChar '-' s.toList with
  | [ycs, mcs, dcs] =>
    if ycs.length ≤ 4 ∧ mcs.length ≤ 2 ∧ dcs.length ≤ 2 then
      match digitsToNat ycs, digitsToNat mcs, digitsToNat dcs with
      | some y, some m, some d =>
        if 1 ≤ y ∧ y ≤ 9999 ∧ 1 ≤ m ∧ m ≤ 12 ∧ 1 ≤ d ∧ d ≤ daysInMonth y m then
          some (dateToOrdinal y m d)
        else none
      | _, _, _ => none
    else none
  | _ => none

/-- A reservation record as stored in `RESERVATIONS`: date and time fields
are the raw request strings. -/
structure RawReservation where
  user_id : String
  classroom_id : Nat
  date : String
  start_time : String
  end_time : String
  participants : List String
deriving DecidableEq, Repr

/-- The raw-string reservation store. -/
structure RawResDB where
  reservations : List (Nat × RawReservation)
  next_id : Nat
deriving DecidableEq, Repr

/-- Contribution of one stored record to `count_active_reservations`,
re-parsing the stored strings as the source does. (On a record whose
fields do not parse the source raises an uncaught `ValueError`; creation
validates the fields, so such records never arise, and the model counts
them as zero.) -/
def resContribS (env : Env) (uid : String) (r : RawReservation) : Nat :=
  match parseDateS r.date, parseTimeS r.start_time with
  | some d, some t =>
    (if r.user_id = uid ∧ env.now ≤ dtSec d t then 1 else 0) +
    (if uid ∈ r.participants ∧ env.now ≤ dtSec d t then 1 else 0)
  | _, _ => 0

/-- `count_active_reservations` over the raw store. -/
def countActiveReservationsS (env : Env) (db : RawResDB) (uid : String) : Nat :=
  (db.reservations.map (fun p => resContribS env uid p.2)).sum

/-- The participant-quota loop over the raw store. -/
def firstOverQuotaParticipantS (env : Env) (db : RawResDB) : List String → Option String
  | [] => none
  | p :: ps =>
    if p ∈ env.users ∧ 3 ≤ countActiveReservationsS env db p then some p
    else firstOverQuotaParticipantS env db ps

/-- The conflict scan of `create_reservation`:
`reservation["date"] == reservation_date` compares the raw strings, so
two aliases of one calendar day never collide here. The stored times are
re-parsed for the overlap test (unparseable stored times — impossible
after creation-time validation — would raise in the source and are
skipped here). -/
def conflictsForS (db : RawResDB) (cid : Nat) (dateS : String) (s e : Time) :
    List (String × String × String) :=
  db.reservations.filterMap (fun p =>
    if p.2.classroom_id = cid ∧ p.2.date = dateS then
      match parseTimeS p.2.start_time, parseTimeS p.2.end_time with
      | some es, some ee =>
        if isTimeOverlap s e es ee then some (p.2.start_time, p.2.end_time, p.2.user_id)
        else none
      | _, _ => none
    else none)

/-- `create_reservation` over the raw store, check by check in source
order: date parse, start parse, end parse, past, window, slot, requester
quota, participant quota, raw-string conflict scan. -/
def createReservationS (env : Env) (uid : String) (cid : Nat)
    (dateS startS endS : String) (parts : Option (List String)) (db : RawResDB) :
    (Bool × Msg) × RawResDB :=
  match parseDateS dateS with
  | none => ((false, .invalidDateStr dateS), db)
  | some d =>
    match parseTimeS startS with
    | none => ((false, .invalidTimeStr startS), db)
    | some s =>
      match parseTimeS endS with
      | none => ((false, .invalidTimeStr endS), db)
      | some e =>
        if isPastDatetime env d s then ((false, .pastTime), db)
        else if !isWithin7Days env d then ((false, .outOfWindow), db)
        else if !isValidTimeSlot s e then ((false, .invalidSlot), db)
        else if 3 ≤ countActiveReservationsS env db uid then ((false, .quotaExceeded), db)
        else
          let ps := cleanParticipants uid (parts.getD [])
          match firstOverQuotaParticipantS env db ps with
          | some p => ((false, .participantQuotaExceeded p), db)
          | none =>
            let confs := conflictsForS db cid dateS s e
            if confs ≠ [] then ((false, .timeConflictS startS endS confs), db)
            else
              ((true, .created),
               { reservations := db.reservations ++
                   [(db.next_id, ⟨uid, cid, dateS, startS, endS, ps⟩)],
                 next_id := db.next_id + 1 })

/-- `cancel_reservation` over the raw store. -/
def cancelReservationS (rid : Nat) (uid : String) (db : RawResDB) :
    (Bool × Msg) × RawResDB :=
  match lookupA rid db.reservations with
  | none => ((false, .resNotFound), db)
  | some r =>
    if r.user_id ≠ uid then ((false, .resNotOwner), db)
    else ((true, .resCancelled),
          { db with reservations := db.reservations.filter (fun p => p.1 ≠ rid) })

/-- `delete_reservation` over the raw store. -/
def deleteReservationS (rid : Nat) (db : RawResDB) : Bool × RawResDB :=
  match lookupA rid db.reservations with
  | none => (false, db)
  | some _ =>
    (true, { db with reservations := db.reservations.filter (fun p => p.1 ≠ rid) })

/-! ## Waitlist store (`waitlist_db.py`) -/

/-- A waitlist entry as stored in `WAITLIST`: the date and time fields are
the raw request strings; `created_at` is the `datetime.now().isoformat()`
stamp, abstracted to seconds (isoformat order is chronological order). -/
structure WLEntry where
  user_id : String
  classroom_id : Nat
  date : String
  start_time : String
  end_time : String
  created_at : Nat
  priority : Nat
deriving DecidableEq, Repr

/-- The waitlist store: the `WAITLIST` dict and its `_next_id` counter. -/
structure WLDB where
  entries : List (Nat × WLEntry)
  next_id : Nat
deriving DecidableEq, Repr

/-- Membership of an entry in the (classroom, date, start, end) group used
for priority computation: the source compares the raw strings
(waitlist_db.py lines 82-95, 159-172), so two aliases of one interval lie
in different groups. -/
def inGroup (cid : Nat) (d st et : String) (en : WLEntry) : Bool :=
  decide (en.classroom_id = cid ∧ en.date = d ∧ en.start_time = st ∧ en.end_time = et)

/-- One step of the priority re-sync loop: a group member's priority
becomes the count of group entries with an earlier created_at, computed
over the current store `l`. -/
def resyncEntry (cid : Nat) (d st et : String) (l : List (Nat × WLEntry))
    (p : Nat × WLEntry) : Nat × WLEntry :=
  if inGroup cid d st et p.2 then
    (p.1, { p.2 with priority :=
      (l.filter (fun q => inGroup cid d st et q.2 && q.2.created_at < p.2.created_at)).length })
  else p

/-- The priority re-sync loop shared by `cancel_waitlist_entry` and the
promotion path: only immutable fields are consulted by the recomputation,
so the in-place loop equals this simultaneous map over the current store. -/
def resyncPriorities (cid : Nat) (d st et : String) (l : List (Nat × WLEntry)) :
    List (Nat × WLEntry) :=
  l.map (resyncEntry cid d st et l)

/-- Deletion of entry `wid` followed by the group re-sync loop. -/
def removeAndResync (wid cid : Nat) (d st et : String) (wl : WLDB) : WLDB :=
  { wl with entries := resyncPriorities cid d st et (wl.entries.filter (fun p => p.1 ≠ wid)) }

/-- `create_waitlist_entry`: quota gate, parse gate (the parsed values are
used only for validation), raw-string duplicate gate, then insert with
priority = current size of the exact-string group. -/
def createWaitlistEntry (env : Env) (uid : String) (cid : Nat)
    (d st et : String) (resDB : RawResDB) (wl : WLDB) : (Bool × Msg) × WLDB :=
  if 3 ≤ countActiveReservationsS env resDB uid then ((false, .wlQuotaExceeded), wl)
  else
    match parseDateS d with
    | none => ((false, .invalidDateStr d), wl)
    | some _ =>
      match parseTimeS st with
      | none => ((false, .invalidTimeStr st), wl)
      | some _ =>
        match parseTimeS et with
        | none => ((false, .invalidTimeStr et), wl)
        | some _ =>
          if wl.entries.any (fun p => decide (p.2.user_id = uid) && inGroup cid d st et p.2) then
            ((false, .wlDuplicate), wl)
          else
            let pr := (wl.entries.filter (fun p => inGroup cid d st et p.2)).length
            ((true, .wlCreated pr),
             { entries := wl.entries ++ [(wl.next_id, ⟨uid, cid, d, st, et, env.now, pr⟩)],
               next_id := wl.next_id + 1 })

/-- `cancel_waitlist_entry`: owner-only deletion plus group re-sync. -/
def cancelWaitlistEntry (wid : Nat) (uid : String) (wl : WLDB) : (Bool × Msg) × WLDB :=
  match lookupA wid wl.entries with
  | none => ((false, .wlNotFound), wl)
  | some en =>
    if en.user_id ≠ uid then ((false, .wlNotOwner), wl)
    else ((true, .wlCancelled),
          removeAndResync wid en.classroom_id en.date en.start_time en.end_time wl)

/-! ## Notification store (`notification_db.py`) -/

/-- A notification record as stored in `NOTIFICATIONS`. -/
structure Notification where
  user_id : String
  reservation_id : Nat
  message : String
  created_at : Nat
  read : Bool
deriving DecidableEq, Repr

/-- The notification store. -/
structure NotifDB where
  notifications : List (Nat × Notification)
  next_id : Nat
deriving DecidableEq, Repr

/-- `create_notification`: append an unread record under the next id. -/
def createNotification (env : Env) (uid : String) (rid : Nat) (msg : String)
    (ndb : NotifDB) : NotifDB :=
  { notifications := ndb.notifications ++ [(ndb.next_id, ⟨uid, rid, msg, env.now, false⟩)],
    next_id := ndb.next_id + 1 }

/-- Leading-match test on character lists. -/
def leadMatch : List Char → List Char → Bool
  | [], _ => true
  | _ :: _, [] => false
  | a :: as, b :: bs => a = b && leadMatch as bs

/-- Contiguous-substring test on character lists: Python's `needle in s`. -/
def substrIn (needle : List Char) : List Char → Bool
  | [] => leadMatch needle []
  | h :: t => leadMatch needle (h :: t) || substrIn needle t

/-- The reminder marker the scan greps for: `"30분 전 알림"`. -/
def reminderTag : String := "30분 전 알림"

/-- Python `"30분 전 알림" in message`. -/
def hasTag (m : String) : Bool := substrIn reminderTag.toList m.toList

/-- Zero-padded two-digit rendering. -/
def pad2 (n : Nat) : String := if n < 10 then "0" ++ toString n else toString n

/-- `HH:MM` rendering of a time, the canonical form of the stored strings. -/
def renderTime (t : Time) : String := pad2 t.hour ++ ":" ++ pad2 t.minute

/-- Classroom display name: `classroom["name"]` when the directory knows
the id, else the `"강의실 {id}"` fallback. -/
def classroomName (env : Env) (cid : Nat) : String :=
  match lookupA cid env.classrooms with
  | some n => n
  | none => "강의실 " ++ toString cid

/-- The reminder message text of the scan (and of
`schedule_reservation_notification`). -/
def mkReminderMsg (cname st : String) : String :=
  "[" ++ cname ++ "] 예약이 " ++ st ++ "에 시작됩니다. (" ++ reminderTag ++ ")"

/-- The auto-assignment message text of the waitlist promotion; the date
and interval are the raw strings the source interpolates. -/
def mkPromoMsg (cname d st et : String) : String :=
  "[" ++ cname ++ "] 대기 신청하신 예약이 자동으로 할당되었습니다. (" ++
    d ++ " " ++ st ++ "~" ++ et ++ ")"

/-- Stable descending insertion for the `created_at` sort of
`get_user_notifications` (`sort(..., reverse=True)` keeps ties in order). -/
def insertNotifDesc (x : Nat × Notification) :
    List (Nat × Notification) → List (Nat × Notification)
  | [] => [x]
  | y :: ys =>
    if y.2.created_at < x.2.created_at then x :: y :: ys else y :: insertNotifDesc x ys

/-- Newest-first sort of `get_user_notifications`. -/
def sortNotifDesc (l : List (Nat × Notification)) : List (Nat × Notification) :=
  l.foldr insertNotifDesc []

/-- `get_user_notifications`: the user's notifications, optionally unread
only, newest first. -/
def getUserNotifications (ndb : NotifDB) (uid : String) (unreadOnly : Bool) :
    List (Nat × Notification) :=
  let l := ndb.notifications.filter (fun p => decide (p.2.user_id = uid))
  let l2 := if unreadOnly then l.filter (fun p => !p.2.read) else l
  sortNotifDesc l2

/-- The duplicate test of the scan: some notification of the owner matches
the reservation id and contains the reminder marker. -/
def hasReminder (ndb : NotifDB) (rid : Nat) (uid : String) : Bool :=
  (getUserNotifications ndb uid false).any
    (fun p => decide (p.2.reservation_id = rid) && hasTag p.2.message)

/-- The 5-minute tolerance test of the scan:
`abs(reservation_datetime - (now + 30min)) <= 300` seconds. -/
def inReminderWindow (env : Env) (r : Reservation) : Bool :=
  ((dtSec r.date r.start_time : Int) - ((env.now : Int) + 1800)).natAbs ≤ 300

/-- The body of the scan loop for one reservation: if it starts within the
tolerance window of now+30min and the owner has no matching reminder yet,
notify the owner and every registered participant. -/
def processOneReservation (env : Env) (ndb : NotifDB) (rid : Nat) (r : Reservation) :
    NotifDB :=
  if inReminderWindow env r then
    if hasReminder ndb rid r.user_id then ndb
    else
      let msg := mkReminderMsg (classroomName env r.classroom_id) (renderTime r.start_time)
      let n1 := createNotification env r.user_id rid msg ndb
      r.participants.foldl
        (fun nd p => if p ∈ env.users then createNotification env p rid msg nd else nd) n1
  else ndb

/-- `check_and_create_notifications`: the periodic reminder scan over all
reservations. -/
def checkAndCreateNotifications (env : Env) (rdb : ResDB) (ndb : NotifDB) : NotifDB :=
  rdb.reservations.foldl (fun nd q => processOneReservation env nd q.1 q.2) ndb

/-! ## Waitlist promotion (`process_waitlist_on_reservation_cancelled`)
and the full system state. -/

/-- The whole in-memory state: the three stores (raw-string layer). -/
structure Sys where
  res : RawResDB
  wl : WLDB
  notif : NotifDB
deriving DecidableEq, Repr

/-- The empty stores at first start (missing files, counters 1). -/
def initSys : Sys := ⟨⟨[], 1⟩, ⟨[], 1⟩, ⟨[], 1⟩⟩

/-- The summary dict returned by a successful promotion: the raw strings. -/
structure PromoSummary where
  user_id : String
  classroom_id : Nat
  date : String
  start_time : String
  end_time : String
deriving DecidableEq, Repr

/-- Strict lexicographic order on the `(priority, created_at)` sort key. -/
def candLt (a b : Nat × WLEntry) : Bool :=
  a.2.priority < b.2.priority ||
    (a.2.priority = b.2.priority && a.2.created_at < b.2.created_at)

/-- Stable ascending insertion for the candidate sort (`list.sort` is
stable: an element is placed before the first strictly greater one). -/
def insertCand (x : Nat × WLEntry) : List (Nat × WLEntry) → List (Nat × WLEntry)
  | [] => [x]
  | y :: ys => if candLt x y then x :: y :: ys else y :: insertCand x ys

/-- `matching_entries.sort(key=(priority, created_at))`. -/
def sortCand (l : List (Nat × WLEntry)) : List (Nat × WLEntry) :=
  l.foldr insertCand []

/-- The snapshot of waitlist entries whose classroom matches and whose
`date` string equals the freed reservation's `date` string
(`entry["date"] == date`, raw strings, waitlist_db.py line 200) and whose
re-parsed interval overlaps the freed interval; entries whose stored times
fail to parse are skipped, as by the source's `except ValueError:
continue`. -/
def wlMatching (wl : WLDB) (cid : Nat) (d : String) (cs ce : Time) :
    List (Nat × WLEntry) :=
  wl.entries.filter (fun p =>
    decide (p.2.classroom_id = cid ∧ p.2.date = d) &&
      (match parseTimeS p.2.start_time, parseTimeS p.2.end_time with
       | some es, some ee => isTimeOverlap cs ce es ee
       | _, _ => false))

/-- The promotion loop over the sorted candidate snapshot: discard
over-quota candidates (as a cancellation), otherwise try to rebook the
candidate's own full raw-string interval; on the first success remove the
entry, re-sync its raw-string group, notify the promoted user against the
largest reservation id — skipped when that id is `0`, which Python's
`if reservation_id:` treats as falsy — and stop. -/
def promoteLoop (env : Env) (cid : Nat) (d : String) :
    List (Nat × WLEntry) → Sys → Option PromoSummary × Sys
  | [], s => (none, s)
  | (wid, en) :: rest, s =>
    if 3 ≤ countActiveReservationsS env s.res en.user_id then
      promoteLoop env cid d rest { s with wl := (cancelWaitlistEntry wid en.user_id s.wl).2 }
    else
      let r1 := createReservationS env en.user_id cid d en.start_time en.end_time none s.res
      if r1.1.1 then
        let wl1 := removeAndResync wid cid d en.start_time en.end_time s.wl
        let msg := mkPromoMsg (classroomName env cid) d en.start_time en.end_time
        let notif1 :=
          match maxKey r1.2.reservations with
          | some rid =>
            if rid ≠ 0 then createNotification env en.user_id rid msg s.notif else s.notif
          | none => s.notif
        (some ⟨en.user_id, cid, d, en.start_time, en.end_time⟩,
         { res := r1.2, wl := wl1, notif := notif1 })
      else promoteLoop env cid d rest { s with res := r1.2 }

/-- `process_waitlist_on_reservation_cancelled`: parses the freed interval
strings and runs the loop on the sorted raw-string matches. -/
def processWaitlistOnReservationCancelled (env : Env) (cid : Nat)
    (d startS endS : String) (s : Sys) : Option PromoSummary × Sys :=
  match parseTimeS startS with
  | none => (none, s)
  | some cs =>
    match parseTimeS endS with
    | none => (none, s)
    | some ce => promoteLoop env cid d (sortCand (wlMatching s.wl cid d cs ce)) s

/-- States reachable from first start by the store operations the claims
range over. Each step runs under some environment; waitlist creation
records that the wall clock has advanced strictly past every stored
creation stamp (`datetime.now().isoformat()` between successive requests);
the notification step replaces the notification store arbitrarily,
over-approximating every notification-only operation (the periodic scan,
read-marking, scheduling), none of which touches the reservation or
waitlist stores. -/
inductive Reachable : Sys → Prop where
  | init : Reachable initSys
  | stepCreateRes (env : Env) (uid : String) (cid : Nat) (dateS startS endS : String)
      (parts : Option (List String)) {s : Sys} : Reachable s →
      Reachable { s with res := (createReservationS env uid cid dateS startS endS parts s.res).2 }
  | stepCancelRes (rid : Nat) (uid : String) {s : Sys} : Reachable s →
      Reachable { s with res := (cancelReservationS rid uid s.res).2 }
  | stepDeleteRes (rid : Nat) {s : Sys} : Reachable s →
      Reachable { s with res := (deleteReservationS rid s.res).2 }
  | stepCreateWL (env : Env) (uid : String) (cid : Nat) (dateS startS endS : String)
      {s : Sys} (hclock : ∀ p ∈ s.wl.entries, (p : Nat × WLEntry).2.created_at < env.now) :
      Reachable s →
      Reachable { s with wl := (createWaitlistEntry env uid cid dateS startS endS s.res s.wl).2 }
  | stepCancelWL (wid : Nat) (uid : String) {s : Sys} : Reachable s →
      Reachable { s with wl := (cancelWaitlistEntry wid uid s.wl).2 }
  | stepProcessWL (env : Env) (cid : Nat) (dateS startS endS : String) {s : Sys} :
      Reachable s →
      Reachable (processWaitlistOnReservationCancelled env cid dateS startS endS s).2
  | stepNotif (ndb : NotifDB) {s : Sys} : Reachable s →
      Reachable { s with notif := ndb }

/-! ## Helper lemmas about the reservation store -/

/-- Shape of a successful `createReservation`: all checks passed and the
record is appended under the current counter. -/
theorem createReservation_success_shape (env : Env) (uid : String) (cid d : Nat)
    (sRaw eRaw : Nat × Nat) (parts : Option (List String)) (db : ResDB)
    (h : (createReservation env uid cid d sRaw eRaw parts db).1.1 = true) :
    ∃ s e, parseTime sRaw = some s ∧ parseTime eRaw = some e ∧
      isPastDatetime env d s = false ∧ isWithin7Days env d = true ∧
      isValidTimeSlot s e = true ∧ countActiveReservations env db uid < 3 ∧
      firstOverQuotaParticipant env db (cleanParticipants uid (parts.getD [])) = none ∧
      conflictsFor db cid d s e = [] ∧
      createReservation env uid cid d sRaw eRaw parts db =
        ((true, .created),
         ⟨db.reservations ++
            [(db.next_id, ⟨uid, cid, d, s, e, cleanParticipants uid (parts.getD [])⟩)],
          db.next_id + 1⟩) := by
  unfold createReservation at h ⊢
  cases hs : parseTime sRaw with
  | none => rw [hs] at h; simp at h
  | some s =>
    cases he : parseTime eRaw with
    | none => rw [hs, he] at h; simp at h
    | some e =>
      rw [hs, he] at h
      dsimp only at h ⊢
      refine ⟨s, e, rfl, rfl, ?_⟩
      by_cases h1 : isPastDatetime env d s = true
      · simp [h1] at h
      · rw [Bool.not_eq_true] at h1
        simp only [h1, Bool.false_eq_true, if_false] at h ⊢
        by_cases h2 : isWithin7Days env d = true
        · simp only [h2, Bool.not_true, Bool.false_eq_true, if_false] at h ⊢
          by_cases h3 : isValidTimeSlot s e = true
          · simp only [h3, Bool.not_true, Bool.false_eq_true, if_false] at h ⊢
            by_cases h4 : 3 ≤ countActiveReservations env db uid
            · simp [h4] at h
            · simp only [h4, if_false] at h ⊢
              cases h5 : firstOverQuotaParticipant env db
                  (cleanParticipants uid (parts.getD [])) with
              | some p => rw [h5] at h; simp at h
              | none =>
                rw [h5] at h
                dsimp only at h ⊢
                by_cases h6 : conflictsFor db cid d s e = []
                · refine ⟨trivial, trivial, trivial, Nat.lt_of_not_le h4, rfl, h6, ?_⟩
                  simp [h6]
                · simp [h6] at h
          · simp [h3] at h
        · simp [h2] at h

/-- Either `createReservation` succeeds or it leaves the store unchanged. -/
theorem createReservation_db_or_success (env : Env) (uid : String) (cid d : Nat)
    (sRaw eRaw : Nat × Nat) (parts : Option (List String)) (db : ResDB) :
    (createReservation env uid cid d sRaw eRaw parts db).1.1 = true ∨
    (createReservation env uid cid d sRaw eRaw parts db).2 = db := by
  unfold createReservation
  cases parseTime sRaw with
  | none => exact Or.inr rfl
  | some s =>
    cases parseTime eRaw with
    | none => exact Or.inr rfl
    | some e =>
      dsimp only
      split_ifs <;>
        first
        | exact Or.inr rfl
        | (cases hq : firstOverQuotaParticipant env db (cleanParticipants uid (parts.getD [])) <;>
            simp [hq])

/-- A failed `createReservation` leaves the store unchanged. -/
theorem createReservation_fail_db (env : Env) (uid : String) (cid d : Nat)
    (sRaw eRaw : Nat × Nat) (parts : Option (List String)) (db : ResDB)
    (h : (createReservation env uid cid d sRaw eRaw parts db).1.1 = false) :
    (createReservation env uid cid d sRaw eRaw parts db).2 = db := by
  rcases createReservation_db_or_success env uid cid d sRaw eRaw parts db with htrue | hdb
  · rw [htrue] at h; cases h
  · exact hdb

/-! ## Participant clean-up lemmas -/

theorem mem_dedupKeepFirst {y : String} : ∀ {l : List String},
    y ∈ dedupKeepFirst l → y ∈ l := by
  intro l
  induction l with
  | nil => intro h; cases h
  | cons x xs ih =>
    intro h
    rcases List.mem_cons.mp h with rfl | h2
    · exact List.mem_cons_self _ _
    · exact List.mem_cons_of_mem _ (ih (List.mem_of_mem_filter h2))

theorem dedupKeepFirst_nodup : ∀ (l : List String), (dedupKeepFirst l).Nodup := by
  intro l
  induction l with
  | nil => exact List.nodup_nil
  | cons x xs ih =>
    refine List.nodup_cons.mpr ⟨?_, List.Nodup.filter _ ih⟩
    intro hmem
    have := List.of_mem_filter hmem
    simp at this

theorem mem_cleanParticipants {uid p : String} {ps : List String}
    (h : p ∈ cleanParticipants uid ps) : p ≠ "" ∧ p ≠ uid := by
  have h2 := mem_dedupKeepFirst h
  have h3 := List.of_mem_filter h2
  simpa using h3

/-! ## Claim C3 (code bug): the 23:00–00:00 slot -/

/-- C3: the spec declares `isValidSlot(23:00, 00:00)` true (the last hour of
the day, matching the source's own comment and special-case branch), but
`_is_valid_time_slot` rejects it: the `start >= end` rejection fires before
the midnight special case, making that branch unreachable. This theorem
evaluates the embedded code at the failing input: both times are on the
hour, the start is the 23:00 hour and the end is midnight — the very case
the claim asserts valid — yet the function returns `false`. -/
theorem C3_midnight_slot_rejected :
    (Time.mk 23 0).minute = 0 ∧ (Time.mk 0 0).minute = 0 ∧
    (Time.mk 23 0).hour = 23 ∧ (Time.mk 0 0).hour = 0 ∧
    isValidTimeSlot ⟨23, 0⟩ ⟨0, 0⟩ = false := by
  decide

/-! ## Claim C7: algebra of `_is_time_overlap` -/

/-- C7: `_is_time_overlap` computes exactly `startA < endB && startB < endA`
on minutes, is symmetric in its two interval arguments, and is false for
touching intervals in either orientation (in particular 10:00–11:00 against
11:00–12:00). -/
theorem C7_overlap_algebra :
    (∀ s1 e1 s2 e2 : Time, isTimeOverlap s1 e1 s2 e2 = true ↔
      timeToMinutes s1 < timeToMinutes e2 ∧ timeToMinutes s2 < timeToMinutes e1) ∧
    (∀ s1 e1 s2 e2 : Time, isTimeOverlap s1 e1 s2 e2 = isTimeOverlap s2 e2 s1 e1) ∧
    (∀ s1 e1 e2 : Time, isTimeOverlap s1 e1 e1 e2 = false ∧
      isTimeOverlap e1 e2 s1 e1 = false) ∧
    isTimeOverlap ⟨10, 0⟩ ⟨11, 0⟩ ⟨11, 0⟩ ⟨12, 0⟩ = false := by
  refine ⟨?_, ?_, ?_, by decide⟩
  · intro s1 e1 s2 e2
    simp [isTimeOverlap]
  · intro s1 e1 s2 e2
    simp only [isTimeOverlap]
    rw [Bool.and_comm]
  · intro s1 e1 e2
    constructor
    · simp [isTimeOverlap]
    · simp [isTimeOverlap]

/-! ## Claim C9 (corrected): successful creation persists but does not
return the id -/

/-- C9 counterexample: two successful calls that assign different ids
(1 and 37, read off the persisted stores) return byte-identical values
`(True, success-message)`, so the returned value cannot carry the new
reservation's id — refuting "returns the new reservation's id to the
caller". -/
theorem C9_counterexample :
    (createReservation ⟨0, [], []⟩ "u" 1 1 (14, 0) (15, 0) none ⟨[], 1⟩).1 =
      (createReservation ⟨0, [], []⟩ "u" 1 1 (14, 0) (15, 0) none ⟨[], 37⟩).1 ∧
    (createReservation ⟨0, [], []⟩ "u" 1 1 (14, 0) (15, 0) none ⟨[], 1⟩).1 =
      (true, Msg.created) ∧
    (createReservation ⟨0, [], []⟩ "u" 1 1 (14, 0) (15, 0) none
        ⟨[], 1⟩).2.reservations.map Prod.fst = [1] ∧
    (createReservation ⟨0, [], []⟩ "u" 1 1 (14, 0) (15, 0) none
        ⟨[], 37⟩).2.reservations.map Prod.fst = [37] := by
  decide

/-- C9 amended: on every successful call `create_reservation` assigns the
store's next id, persists the new record under it, increments the counter —
but returns only the success flag with a fixed success message; the id is
not part of the return value. -/
theorem C9_success_persists_under_next_id (env : Env) (uid : String) (cid d : Nat)
    (sRaw eRaw : Nat × Nat) (parts : Option (List String)) (db : ResDB)
    (h : (createReservation env uid cid d sRaw eRaw parts db).1.1 = true) :
    ∃ s e, parseTime sRaw = some s ∧ parseTime eRaw = some e ∧
      createReservation env uid cid d sRaw eRaw parts db =
        ((true, Msg.created),
         ⟨db.reservations ++
            [(db.next_id, ⟨uid, cid, d, s, e, cleanParticipants uid (parts.getD [])⟩)],
          db.next_id + 1⟩) := by
  obtain ⟨s, e, hs, he, _, _, _, _, _, _, heq⟩ :=
    createReservation_success_shape env uid cid d sRaw eRaw parts db h
  exact ⟨s, e, hs, he, heq⟩

theorem C9_witness :
    ∃ s e, parseTime (14, 0) = some s ∧ parseTime (15, 0) = some e ∧
      createReservation ⟨0, [], []⟩ "u" 1 1 (14, 0) (15, 0) none ⟨[], 1⟩ =
        ((true, Msg.created),
         ⟨[] ++ [(1, ⟨"u", 1, 1, s, e, cleanParticipants "u" ((none : Option (List String)).getD [])⟩)], 2⟩) :=
  C9_success_persists_under_next_id ⟨0, [], []⟩ "u" 1 1 (14, 0) (15, 0) none ⟨[], 1⟩ (by decide)

/-! ## Claim C10: stored participant lists are clean -/

/-- C10: every reservation created by `create_reservation` stores the
cleaned participant list — deduplicated, free of blanks, and free of the
owner — and therefore contributes at most once to
`count_active_reservations` (which is the sum of `resContrib` over the
store) for any user. -/
theorem C10_participants_invariant (env : Env) (uid : String) (cid d : Nat)
    (sRaw eRaw : Nat × Nat) (parts : Option (List String)) (db : ResDB)
    (h : (createReservation env uid cid d sRaw eRaw parts db).1.1 = true) :
    ∃ s e,
      (createReservation env uid cid d sRaw eRaw parts db).2.reservations =
        db.reservations ++
          [(db.next_id, ⟨uid, cid, d, s, e, cleanParticipants uid (parts.getD [])⟩)] ∧
      (cleanParticipants uid (parts.getD [])).Nodup ∧
      uid ∉ cleanParticipants uid (parts.getD []) ∧
      (∀ p ∈ cleanParticipants uid (parts.getD []), p ≠ "") ∧
      ∀ v : String,
        resContrib env v ⟨uid, cid, d, s, e, cleanParticipants uid (parts.getD [])⟩ ≤ 1 := by
  obtain ⟨s, e, hs, he, _, _, _, _, _, _, heq⟩ :=
    createReservation_success_shape env uid cid d sRaw eRaw parts db h
  refine ⟨s, e, by rw [heq], dedupKeepFirst_nodup _, ?_, ?_, ?_⟩
  · intro hmem
    exact (mem_cleanParticipants hmem).2 rfl
  · intro p hp
    exact (mem_cleanParticipants hp).1
  · intro v
    dsimp only [resContrib]
    split_ifs with hc1 hc2 hc2
    · exfalso
      have huid : uid = v := hc1.1
      have : v ∈ cleanParticipants uid (parts.getD []) := hc2.1
      rw [← huid] at this
      exact (mem_cleanParticipants this).2 rfl
    · omega
    · omega
    · omega

theorem C10_witness :
    ∃ s e,
      (createReservation ⟨0, ["bob"], []⟩ "u" 1 1 (14, 0) (15, 0) none
          ⟨[], 1⟩).2.reservations =
        [] ++ [(1, ⟨"u", 1, 1, s, e, cleanParticipants "u" ((none : Option (List String)).getD [])⟩)] ∧
      (cleanParticipants "u" ((none : Option (List String)).getD [])).Nodup ∧
      "u" ∉ cleanParticipants "u" ((none : Option (List String)).getD []) ∧
      (∀ p ∈ cleanParticipants "u" ((none : Option (List String)).getD []), p ≠ "") ∧
      ∀ v : String,
        resContrib ⟨0, ["bob"], []⟩ v
          ⟨"u", 1, 1, s, e, cleanParticipants "u" ((none : Option (List String)).getD [])⟩ ≤ 1 :=
  C10_participants_invariant ⟨0, ["bob"], []⟩ "u" 1 1 (14, 0) (15, 0) none ⟨[], 1⟩ (by decide)

/-! ## Claim C6: the three-active-reservations quota -/

/-- A first-match lookup hit is a member of the association list. -/
theorem lookupA_mem {α : Type} {k : Nat} {v : α} : ∀ {l : List (Nat × α)},
    lookupA k l = some v → (k, v) ∈ l := by
  intro l
  induction l with
  | nil => intro h; cases h
  | cons p ps ih =>
    intro h
    unfold lookupA at h
    split_ifs at h with hk
    · cases h
      rcases p with ⟨k', v'⟩
      cases hk
      exact List.mem_cons_self _ _
    · exact List.mem_cons_of_mem _ (ih h)

/-- Removing the entries of one key from the store lowers a user's active
count by at least the removed record's contribution. -/
theorem countActive_after_remove (env : Env) (db : ResDB) (uid : String)
    (rid : Nat) (r : Reservation) (hmem : (rid, r) ∈ db.reservations) :
    countActiveReservations env
        ⟨db.reservations.filter (fun p => p.1 ≠ rid), db.next_id⟩ uid +
      resContrib env uid r ≤ countActiveReservations env db uid := by
  unfold countActiveReservations
  dsimp only
  have hperm := List.filter_append_perm (fun p => p.1 ≠ rid) db.reservations
  have hsum :
      ((db.reservations.filter (fun p => p.1 ≠ rid)).map (fun p => resContrib env uid p.2)).sum +
      ((db.reservations.filter (fun p => !(p.1 ≠ rid))).map (fun p => resContrib env uid p.2)).sum =
      (db.reservations.map (fun p => resContrib env uid p.2)).sum := by
    rw [← List.sum_append, ← List.map_append]
    exact (hperm.map (fun p => resContrib env uid p.2)).sum_eq
  have hmem2 : (rid, r) ∈ db.reservations.filter (fun p => !(p.1 ≠ rid)) :=
    List.mem_filter.mpr ⟨hmem, by simp⟩
  have hle : resContrib env uid r ≤
      ((db.reservations.filter (fun p => !(p.1 ≠ rid))).map (fun p => resContrib env uid p.2)).sum :=
    List.single_le_sum (fun x _ => Nat.zero_le x) _
      (List.mem_map_of_mem (fun p => resContrib env uid p.2) hmem2)
  omega

/-- C6: a user with exactly three active reservations is refused a fourth
booking with the quota message and the store is unchanged; after cancelling
one of their own active reservations, the same otherwise-valid booking
succeeds. -/
theorem C6_quota_blocks_then_cancel_frees (env : Env) (uid : String) (cid d : Nat)
    (sRaw eRaw : Nat × Nat) (db : ResDB) (rid : Nat) (r : Reservation) (s e : Time)
    (hs : parseTime sRaw = some s) (he : parseTime eRaw = some e)
    (hpast : isPastDatetime env d s = false) (hwin : isWithin7Days env d = true)
    (hslot : isValidTimeSlot s e = true)
    (hcount : countActiveReservations env db uid = 3)
    (hlook : lookupA rid db.reservations = some r)
    (hown : r.user_id = uid)
    (hactive : env.now ≤ dtSec r.date r.start_time)
    (hnoconf : conflictsFor (cancelReservation rid uid db).2 cid d s e = []) :
    (createReservation env uid cid d sRaw eRaw none db).1 = (false, .quotaExceeded) ∧
    (createReservation env uid cid d sRaw eRaw none db).2 = db ∧
    (cancelReservation rid uid db).1 = (true, .resCancelled) ∧
    (createReservation env uid cid d sRaw eRaw none
        (cancelReservation rid uid db).2).1 = (true, .created) := by
  have hq3 : 3 ≤ countActiveReservations env db uid := by omega
  have hfail : (createReservation env uid cid d sRaw eRaw none db).1 =
      (false, .quotaExceeded) := by
    unfold createReservation
    rw [hs, he]
    simp [hpast, hwin, hslot, hq3]
  have hcancel : cancelReservation rid uid db =
      ((true, .resCancelled),
       { db with reservations := db.reservations.filter (fun p => p.1 ≠ rid) }) := by
    unfold cancelReservation
    rw [hlook]
    simp [hown]
  have hcontrib : 1 ≤ resContrib env uid r := by
    unfold resContrib
    rw [if_pos ⟨hown, hactive⟩]
    omega
  have hcount' : countActiveReservations env (cancelReservation rid uid db).2 uid < 3 := by
    have := countActive_after_remove env db uid rid r (lookupA_mem hlook)
    rw [hcancel]
    dsimp only
    omega
  refine ⟨hfail, ?_, by rw [hcancel], ?_⟩
  · exact createReservation_fail_db env uid cid d sRaw eRaw none db (by rw [hfail])
  · unfold createReservation
    rw [hs, he]
    have hfq : firstOverQuotaParticipant env (cancelReservation rid uid db).2
        (cleanParticipants uid []) = none := rfl
    simp [hpast, hwin, hslot, Nat.not_le.mpr hcount', hfq, hnoconf]

theorem C6_witness :
    (createReservation ⟨0, [], []⟩ "u" 1 4 (14, 0) (15, 0) none
        ⟨[(1, ⟨"u", 1, 1, ⟨14, 0⟩, ⟨15, 0⟩, []⟩), (2, ⟨"u", 1, 2, ⟨14, 0⟩, ⟨15, 0⟩, []⟩),
          (3, ⟨"u", 1, 3, ⟨14, 0⟩, ⟨15, 0⟩, []⟩)], 4⟩).1 = (false, .quotaExceeded) ∧
    (createReservation ⟨0, [], []⟩ "u" 1 4 (14, 0) (15, 0) none
        ⟨[(1, ⟨"u", 1, 1, ⟨14, 0⟩, ⟨15, 0⟩, []⟩), (2, ⟨"u", 1, 2, ⟨14, 0⟩, ⟨15, 0⟩, []⟩),
          (3, ⟨"u", 1, 3, ⟨14, 0⟩, ⟨15, 0⟩, []⟩)], 4⟩).2 =
      ⟨[(1, ⟨"u", 1, 1, ⟨14, 0⟩, ⟨15, 0⟩, []⟩), (2, ⟨"u", 1, 2, ⟨14, 0⟩, ⟨15, 0⟩, []⟩),
        (3, ⟨"u", 1, 3, ⟨14, 0⟩, ⟨15, 0⟩, []⟩)], 4⟩ ∧
    (cancelReservation 1 "u"
        ⟨[(1, ⟨"u", 1, 1, ⟨14, 0⟩, ⟨15, 0⟩, []⟩), (2, ⟨"u", 1, 2, ⟨14, 0⟩, ⟨15, 0⟩, []⟩),
          (3, ⟨"u", 1, 3, ⟨14, 0⟩, ⟨15, 0⟩, []⟩)], 4⟩).1 = (true, .resCancelled) ∧
    (createReservation ⟨0, [], []⟩ "u" 1 4 (14, 0) (15, 0) none
        (cancelReservation 1 "u"
          ⟨[(1, ⟨"u", 1, 1, ⟨14, 0⟩, ⟨15, 0⟩, []⟩), (2, ⟨"u", 1, 2, ⟨14, 0⟩, ⟨15, 0⟩, []⟩),
            (3, ⟨"u", 1, 3, ⟨14, 0⟩, ⟨15, 0⟩, []⟩)], 4⟩).2).1 = (true, .created) :=
  C6_quota_blocks_then_cancel_frees ⟨0, [], []⟩ "u" 1 4 (14, 0) (15, 0)
    ⟨[(1, ⟨"u", 1, 1, ⟨14, 0⟩, ⟨15, 0⟩, []⟩), (2, ⟨"u", 1, 2, ⟨14, 0⟩, ⟨15, 0⟩, []⟩),
      (3, ⟨"u", 1, 3, ⟨14, 0⟩, ⟨15, 0⟩, []⟩)], 4⟩ 1 ⟨"u", 1, 1, ⟨14, 0⟩, ⟨15, 0⟩, []⟩
    ⟨14, 0⟩ ⟨15, 0⟩ (by decide) (by decide) (by decide) (by decide) (by decide)
    (by decide) (by decide) (by decide) (by decide) (by decide)

/-! ## Claim C8: idempotence of the reminder scan -/

theorem mem_insertNotifDesc (x y : Nat × Notification) :
    ∀ l : List (Nat × Notification), x ∈ insertNotifDesc y l ↔ x = y ∨ x ∈ l := by
  intro l
  induction l with
  | nil => simp [insertNotifDesc]
  | cons z zs ih =>
    unfold insertNotifDesc
    split_ifs with hz
    · simp
    · simp only [List.mem_cons, ih]
      tauto

theorem mem_sortNotifDesc (x : Nat × Notification) :
    ∀ l : List (Nat × Notification), x ∈ sortNotifDesc l ↔ x ∈ l := by
  intro l
  induction l with
  | nil => simp [sortNotifDesc]
  | cons z zs ih =>
    unfold sortNotifDesc at ih ⊢
    rw [List.foldr_cons, mem_insertNotifDesc, ih, List.mem_cons]

/-- The owner-has-a-reminder test holds exactly when some stored
notification of that user carries the reservation id and the marker. -/
theorem hasReminder_iff (ndb : NotifDB) (rid : Nat) (uid : String) :
    hasReminder ndb rid uid = true ↔
      ∃ pr ∈ ndb.notifications, pr.2.user_id = uid ∧
        pr.2.reservation_id = rid ∧ hasTag pr.2.message = true := by
  unfold hasReminder getUserNotifications
  rw [List.any_eq_true]
  constructor
  · rintro ⟨pr, hmem, hpred⟩
    rw [mem_sortNotifDesc] at hmem
    have h2 := List.mem_filter.mp hmem
    simp only [Bool.and_eq_true, decide_eq_true_eq] at hpred h2
    exact ⟨pr, h2.1, h2.2, hpred.1, hpred.2⟩
  · rintro ⟨pr, hmem, huid, hrid, htag⟩
    refine ⟨pr, ?_, ?_⟩
    · rw [mem_sortNotifDesc]
      exact List.mem_filter.mpr ⟨hmem, by simp [huid]⟩
    · simp [hrid, htag]

theorem leadMatch_append (n rest : List Char) : leadMatch n (n ++ rest) = true := by
  induction n with
  | nil => rfl
  | cons c cs ih => simp [leadMatch, ih]

theorem substrIn_append (n pre post : List Char) :
    substrIn n (pre ++ n ++ post) = true := by
  induction pre with
  | nil =>
    cases hn : n with
    | nil =>
      cases post with
      | nil => rfl
      | cons q qs => simp [substrIn, leadMatch]
    | cons c cs =>
      rw [← hn]
      simp only [List.nil_append]
      rw [hn]
      show (leadMatch (c :: cs) ((c :: cs) ++ post) || _) = true
      rw [leadMatch_append]
      rfl
  | cons p ps ih =>
    show (leadMatch n (p :: (ps ++ n ++ post)) || substrIn n (ps ++ n ++ post)) = true
    rw [ih]
    exact Bool.or_true _

/-- Every reminder message contains the marker the duplicate check greps
for. -/
theorem hasTag_mkReminderMsg (cname st : String) :
    hasTag (mkReminderMsg cname st) = true := by
  unfold hasTag mkReminderMsg
  have hdecomp :
      ("[" ++ cname ++ "] 예약이 " ++ st ++ "에 시작됩니다. (" ++ reminderTag ++ ")").toList =
        ("[" ++ cname ++ "] 예약이 " ++ st ++ "에 시작됩니다. (").toList ++
          reminderTag.toList ++ ")".toList := by
    simp [String.toList, String.data_append]
  rw [hdecomp]
  exact substrIn_append _ _ _

/-- The participant loop of the scan only appends notifications. -/
theorem participantsFold_notifications (env : Env) (msg : String) (rid : Nat)
    (ps : List String) : ∀ nd : NotifDB,
    ∃ suf, (ps.foldl (fun nd p =>
      if p ∈ env.users then createNotification env p rid msg nd else nd) nd).notifications =
      nd.notifications ++ suf := by
  induction ps with
  | nil => intro nd; exact ⟨[], by simp⟩
  | cons p ps ih =>
    intro nd
    rw [List.foldl_cons]
    by_cases hp : p ∈ env.users
    · rw [if_pos hp]
      obtain ⟨suf, hsuf⟩ := ih (createNotification env p rid msg nd)
      refine ⟨(nd.next_id, ⟨p, rid, msg, env.now, false⟩) :: suf, ?_⟩
      rw [hsuf]
      simp [createNotification]
    · rw [if_neg hp]
      exact ih nd

/-- One scan step only appends notifications. -/
theorem processOne_notifications (env : Env) (ndb : NotifDB) (rid : Nat)
    (r : Reservation) :
    ∃ suf, (processOneReservation env ndb rid r).notifications =
      ndb.notifications ++ suf := by
  unfold processOneReservation
  split_ifs with hw hr
  · exact ⟨[], by simp⟩
  · obtain ⟨suf, hsuf⟩ := participantsFold_notifications env
      (mkReminderMsg (classroomName env r.classroom_id) (renderTime r.start_time)) rid
      r.participants (createNotification env r.user_id rid
        (mkReminderMsg (classroomName env r.classroom_id) (renderTime r.start_time)) ndb)
    refine ⟨(ndb.next_id, ⟨r.user_id, rid,
      mkReminderMsg (classroomName env r.classroom_id) (renderTime r.start_time),
      env.now, false⟩) :: suf, ?_⟩
    rw [hsuf]
    simp [createNotification]
  · exact ⟨[], by simp⟩

/-- The reminder test is monotone under appending notifications. -/
theorem hasReminder_mono (ndb ndb' : NotifDB) (rid : Nat) (uid : String)
    (hsub : ∃ suf, ndb'.notifications = ndb.notifications ++ suf)
    (h : hasReminder ndb rid uid = true) : hasReminder ndb' rid uid = true := by
  obtain ⟨suf, hsuf⟩ := hsub
  rw [hasReminder_iff] at h ⊢
  obtain ⟨pr, hmem, hprops⟩ := h
  exact ⟨pr, by rw [hsuf]; exact List.mem_append_left _ hmem, hprops⟩

/-- After the scan has handled an in-window reservation, its owner has a
matching reminder. -/
theorem processOne_sets_reminder (env : Env) (ndb : NotifDB) (rid : Nat)
    (r : Reservation) (hw : inReminderWindow env r = true) :
    hasReminder (processOneReservation env ndb rid r) rid r.user_id = true := by
  unfold processOneReservation
  rw [if_pos hw]
  by_cases hr : hasReminder ndb rid r.user_id = true
  · rw [if_pos hr]
    exact hr
  · rw [if_neg hr]
    have hnew : (ndb.next_id,
        (⟨r.user_id, rid,
          mkReminderMsg (classroomName env r.classroom_id) (renderTime r.start_time),
          env.now, false⟩ : Notification)) ∈
        (createNotification env r.user_id rid
          (mkReminderMsg (classroomName env r.classroom_id) (renderTime r.start_time))
          ndb).notifications := by
      simp [createNotification]
    obtain ⟨suf, hsuf⟩ := participantsFold_notifications env
      (mkReminderMsg (classroomName env r.classroom_id) (renderTime r.start_time)) rid
      r.participants (createNotification env r.user_id rid
        (mkReminderMsg (classroomName env r.classroom_id) (renderTime r.start_time)) ndb)
    rw [hasReminder_iff]
    refine ⟨(ndb.next_id,
      ⟨r.user_id, rid,
        mkReminderMsg (classroomName env r.classroom_id) (renderTime r.start_time),
        env.now, false⟩), ?_, rfl, rfl, hasTag_mkReminderMsg _ _⟩
    rw [hsuf]
    exact List.mem_append_left _ hnew

/-- A scan step for a reservation whose owner already has a matching
reminder leaves the store untouched. -/
theorem processOne_of_hasReminder (env : Env) (ndb : NotifDB) (rid : Nat)
    (r : Reservation) (h : hasReminder ndb rid r.user_id = true) :
    processOneReservation env ndb rid r = ndb := by
  unfold processOneReservation
  simp [h]

/-- After a full scan, every in-window reservation of the scanned list has
an owner reminder. -/
theorem scan_sets_all_reminders (env : Env) :
    ∀ (l : List (Nat × Reservation)) (ndb : NotifDB) (q : Nat × Reservation),
    q ∈ l → inReminderWindow env q.2 = true →
    hasReminder (l.foldl (fun nd q => processOneReservation env nd q.1 q.2) ndb)
      q.1 q.2.user_id = true := by
  intro l
  induction l with
  | nil => intro ndb q hq; cases hq
  | cons x xs ih =>
    intro ndb q hq hw
    rw [List.foldl_cons]
    rcases List.mem_cons.mp hq with rfl | hq2
    · -- the head: the first step sets the reminder, the rest preserve it
      have hset := processOne_sets_reminder env ndb q.1 q.2 hw
      clear hq ih
      generalize processOneReservation env ndb q.1 q.2 = nd0 at hset ⊢
      induction xs generalizing nd0 with
      | nil => exact hset
      | cons y ys ih2 =>
        rw [List.foldl_cons]
        exact ih2 _ (hasReminder_mono _ _ _ _
          (processOne_notifications env nd0 y.1 y.2) hset)
    · exact ih _ q hq2 hw

/-- A scan over reservations whose in-window members already have owner
reminders is the identity. -/
theorem scan_id_of_reminders (env : Env) :
    ∀ (l : List (Nat × Reservation)) (ndb : NotifDB),
    (∀ q ∈ l, inReminderWindow env (q : Nat × Reservation).2 = true →
      hasReminder ndb q.1 q.2.user_id = true) →
    l.foldl (fun nd q => processOneReservation env nd q.1 q.2) ndb = ndb := by
  intro l
  induction l with
  | nil => intro ndb _; rfl
  | cons x xs ih =>
    intro ndb hall
    rw [List.foldl_cons]
    have hx : processOneReservation env ndb x.1 x.2 = ndb := by
      by_cases hw : inReminderWindow env x.2 = true
      · exact processOne_of_hasReminder env ndb x.1 x.2
          (hall x (List.mem_cons_self _ _) hw)
      · unfold processOneReservation
        rw [if_neg hw]
    rw [hx]
    exact ih ndb (fun q hq hw => hall q (List.mem_cons_of_mem _ hq) hw)

/-- C8: the reminder scan is idempotent — running
`check_and_create_notifications` twice at the same clock produces exactly
the notification store of running it once — and, per reservation, a scan
step whose owner already has a reminder matching the reservation id and the
reminder marker creates nothing for the owner or any participant. -/
theorem C8_scan_idempotent :
    (∀ (env : Env) (rdb : ResDB) (ndb : NotifDB),
      checkAndCreateNotifications env rdb (checkAndCreateNotifications env rdb ndb) =
        checkAndCreateNotifications env rdb ndb) ∧
    (∀ (env : Env) (ndb : NotifDB) (rid : Nat) (r : Reservation),
      hasReminder ndb rid r.user_id = true →
      processOneReservation env ndb rid r = ndb) := by
  constructor
  · intro env rdb ndb
    unfold checkAndCreateNotifications
    exact scan_id_of_reminders env rdb.reservations _
      (fun q hq hw => scan_sets_all_reminders env rdb.reservations ndb q hq hw)
  · exact processOne_of_hasReminder

theorem C8_witness :
    processOneReservation ⟨0, [], []⟩
      ⟨[(1, ⟨"u", 5, mkReminderMsg "R" "14:00", 0, false⟩)], 2⟩ 5
      ⟨"u", 1, 0, ⟨0, 30⟩, ⟨1, 30⟩, []⟩ =
    ⟨[(1, ⟨"u", 5, mkReminderMsg "R" "14:00", 0, false⟩)], 2⟩ :=
  C8_scan_idempotent.2 ⟨0, [], []⟩
    ⟨[(1, ⟨"u", 5, mkReminderMsg "R" "14:00", 0, false⟩)], 2⟩ 5
    ⟨"u", 1, 0, ⟨0, 30⟩, ⟨1, 30⟩, []⟩ (by decide)

/-! ## Claim C2: waitlist promotion on cancellation -/

/-- The re-sync loop does not change keys. -/
theorem resyncPriorities_keys (cid : Nat) (d st et : String)
    (l : List (Nat × WLEntry)) :
    (resyncPriorities cid d st et l).map Prod.fst = l.map Prod.fst := by
  unfold resyncPriorities
  rw [List.map_map]
  apply List.map_congr_left
  intro p _
  unfold resyncEntry
  simp only [Function.comp_apply]
  split_ifs <;> rfl

theorem lookupA_eq_none {α : Type} (k : Nat) :
    ∀ l : List (Nat × α), k ∉ l.map Prod.fst → lookupA k l = none := by
  intro l
  induction l with
  | nil => intro _; rfl
  | cons p ps ih =>
    intro h
    unfold lookupA
    rw [List.map_cons, List.mem_cons] at h
    push_neg at h
    rw [if_neg (fun he => h.1 he.symm)]
    exact ih h.2

theorem maxKey_of_ne_nil {α : Type} (l : List (Nat × α)) (h : l ≠ []) :
    ∃ m, maxKey l = some m := by
  unfold maxKey
  cases hl : l.map Prod.fst with
  | nil => exact absurd (List.map_eq_nil_iff.mp hl) h
  | cons k ks => exact ⟨ks.foldl Nat.max k, rfl⟩

/-! ## Symmetry of the overlap test -/

theorem isTimeOverlap_symm (s1 e1 s2 e2 : Time) :
    isTimeOverlap s1 e1 s2 e2 = isTimeOverlap s2 e2 s1 e1 := by
  simp only [isTimeOverlap]
  rw [Bool.and_comm]

/-! ## Claim C5: helper machinery -/

/-- Equality of all waitlist-entry fields except the priority: what every
store operation other than the re-sync preserves. -/
def sameFields (x y : WLEntry) : Prop :=
  x.user_id = y.user_id ∧ x.classroom_id = y.classroom_id ∧ x.date = y.date ∧
  x.start_time = y.start_time ∧ x.end_time = y.end_time ∧ x.created_at = y.created_at

theorem sameFields_refl (x : WLEntry) : sameFields x x :=
  ⟨rfl, rfl, rfl, rfl, rfl, rfl⟩

theorem sameFields_trans {x y z : WLEntry} (h1 : sameFields x y) (h2 : sameFields y z) :
    sameFields x z :=
  ⟨h1.1.trans h2.1, h1.2.1.trans h2.2.1, h1.2.2.1.trans h2.2.2.1,
   h1.2.2.2.1.trans h2.2.2.2.1, h1.2.2.2.2.1.trans h2.2.2.2.2.1,
   h1.2.2.2.2.2.trans h2.2.2.2.2.2⟩

theorem resyncEntry_fst (cid : Nat) (d st et : String) (l : List (Nat × WLEntry))
    (p : Nat × WLEntry) : (resyncEntry cid d st et l p).1 = p.1 := by
  unfold resyncEntry
  split_ifs <;> rfl

theorem resyncEntry_sameFields (cid : Nat) (d st et : String) (l : List (Nat × WLEntry))
    (p : Nat × WLEntry) : sameFields (resyncEntry cid d st et l p).2 p.2 := by
  unfold resyncEntry
  split_ifs
  · exact ⟨rfl, rfl, rfl, rfl, rfl, rfl⟩
  · exact sameFields_refl _

theorem inGroup_iff {cid : Nat} {d st et : String} {x : WLEntry} :
    inGroup cid d st et x = true ↔
      x.classroom_id = cid ∧ x.date = d ∧ x.start_time = st ∧ x.end_time = et := by
  simp [inGroup]

theorem inGroup_self (x : WLEntry) :
    inGroup x.classroom_id x.date x.start_time x.end_time x = true := by
  simp [inGroup]

theorem inGroup_congr_right {cid : Nat} {d st et : String} {x y : WLEntry}
    (h : sameFields x y) : inGroup cid d st et x = inGroup cid d st et y := by
  obtain ⟨_, h2, h3, h4, h5, _⟩ := h
  simp [inGroup, h2, h3, h4, h5]

theorem inGroup_congr_left {x y : WLEntry} (h : sameFields x y) (z : WLEntry) :
    inGroup x.classroom_id x.date x.start_time x.end_time z =
      inGroup y.classroom_id y.date y.start_time y.end_time z := by
  obtain ⟨_, h2, h3, h4, h5, _⟩ := h
  rw [h2, h3, h4, h5]

/-- If two entries are in each other's groups, group predicates coincide. -/
theorem inGroup_trans_eq {x z : WLEntry}
    (hxz : inGroup x.classroom_id x.date x.start_time x.end_time z = true)
    (w : WLEntry) :
    inGroup z.classroom_id z.date z.start_time z.end_time w =
      inGroup x.classroom_id x.date x.start_time x.end_time w := by
  obtain ⟨h1, h2, h3, h4⟩ := inGroup_iff.mp hxz
  rw [h1, h2, h3, h4]

theorem keys_nodup_assoc_unique {α : Type} : ∀ {l : List (Nat × α)},
    (l.map Prod.fst).Nodup → ∀ {k : Nat} {a b : α}, (k, a) ∈ l → (k, b) ∈ l → a = b := by
  intro l
  induction l with
  | nil => intro _ k a b ha; cases ha
  | cons p ps ih =>
    intro hnd k a b ha hb
    rw [List.map_cons, List.nodup_cons] at hnd
    rcases List.mem_cons.mp ha with ha1 | ha2 <;> rcases List.mem_cons.mp hb with hb1 | hb2
    · simpa using ha1.trans hb1.symm
    · exfalso
      apply hnd.1
      rw [← ha1]
      exact List.mem_map.mpr ⟨(k, b), hb2, rfl⟩
    · exfalso
      apply hnd.1
      rw [← hb1]
      exact List.mem_map.mpr ⟨(k, a), ha2, rfl⟩
    · exact ih hnd.2 ha2 hb2

/-- Stable insertion keeps membership. -/
theorem mem_insertCand (x y : Nat × WLEntry) :
    ∀ l : List (Nat × WLEntry), x ∈ insertCand y l ↔ x = y ∨ x ∈ l := by
  intro l
  induction l with
  | nil => simp [insertCand]
  | cons z zs ih =>
    unfold insertCand
    split_ifs with hz
    · simp
    · simp only [List.mem_cons, ih]
      tauto

theorem mem_sortCand (x : Nat × WLEntry) :
    ∀ l : List (Nat × WLEntry), x ∈ sortCand l ↔ x ∈ l := by
  intro l
  induction l with
  | nil => simp [sortCand]
  | cons z zs ih =>
    unfold sortCand at ih ⊢
    rw [List.foldr_cons, mem_insertCand, ih, List.mem_cons]

/-! Ascending insertion sort on naturals, used to analyse the rank map. -/

def insertNatLe (x : Nat) : List Nat → List Nat
  | [] => [x]
  | y :: ys => if x ≤ y then x :: y :: ys else y :: insertNatLe x ys

def sortNat (l : List Nat) : List Nat := l.foldr insertNatLe []

theorem insertNatLe_perm (x : Nat) : ∀ l : List Nat, (insertNatLe x l).Perm (x :: l) := by
  intro l
  induction l with
  | nil => exact List.Perm.refl _
  | cons y ys ih =>
    unfold insertNatLe
    split_ifs with h
    · exact List.Perm.refl _
    · exact (ih.cons y).trans (List.Perm.swap x y ys)

theorem sortNat_perm (l : List Nat) : (sortNat l).Perm l := by
  induction l with
  | nil => exact List.Perm.refl _
  | cons x xs ih =>
    unfold sortNat at ih ⊢
    rw [List.foldr_cons]
    exact (insertNatLe_perm x _).trans (ih.cons x)

theorem insertNatLe_sorted (x : Nat) : ∀ l : List Nat,
    l.Pairwise (· ≤ ·) → (insertNatLe x l).Pairwise (· ≤ ·) := by
  intro l
  induction l with
  | nil => intro _; exact List.pairwise_singleton _ _
  | cons y ys ih =>
    intro h
    rcases List.pairwise_cons.mp h with ⟨hy, hys⟩
    unfold insertNatLe
    split_ifs with hxy
    · refine List.pairwise_cons.mpr ⟨?_, h⟩
      intro z hz
      rcases List.mem_cons.mp hz with rfl | hz2
      · exact hxy
      · exact le_trans hxy (hy z hz2)
    · refine List.pairwise_cons.mpr ⟨?_, ih hys⟩
      intro z hz
      rcases List.mem_cons.mp ((insertNatLe_perm x ys).mem_iff.mp hz) with rfl | hz2
      · omega
      · exact hy z hz2

theorem sortNat_sorted (l : List Nat) : (sortNat l).Pairwise (· ≤ ·) := by
  induction l with
  | nil => exact List.Pairwise.nil
  | cons x xs ih =>
    unfold sortNat at ih ⊢
    rw [List.foldr_cons]
    exact insertNatLe_sorted x _ ih

/-- The rank of a value in a list: how many entries are strictly smaller. -/
def rankOf (ts : List Nat) (t : Nat) : Nat := (ts.filter (fun u => u < t)).length

theorem rankOf_perm {ts ts' : List Nat} (h : ts.Perm ts') (t : Nat) :
    rankOf ts t = rankOf ts' t := by
  unfold rankOf
  rw [← List.countP_eq_length_filter, ← List.countP_eq_length_filter]
  exact h.countP_eq _

theorem rank_map_sorted : ∀ ts : List Nat, ts.Pairwise (· < ·) →
    ts.map (rankOf ts) = List.range ts.length := by
  intro ts
  induction ts with
  | nil => intro _; rfl
  | cons a rest ih =>
    intro h
    rcases List.pairwise_cons.mp h with ⟨ha, hrest⟩
    rw [List.map_cons]
    have h0 : rankOf (a :: rest) a = 0 := by
      unfold rankOf
      rw [List.filter_eq_nil_iff.mpr ?hnil]
      · rfl
      case hnil =>
        intro u hu
        rcases List.mem_cons.mp hu with rfl | hu2
        · simp
        · simp only [decide_eq_true_eq]
          exact Nat.not_lt.mpr (Nat.le_of_lt (ha u hu2))
    have hmap : rest.map (rankOf (a :: rest)) = (rest.map (rankOf rest)).map Nat.succ := by
      rw [List.map_map]
      apply List.map_congr_left
      intro x hx
      unfold rankOf
      rw [List.filter_cons_of_pos (by simpa using ha x hx)]
      simp [Nat.succ_eq_add_one]
    rw [h0, hmap, ih hrest, ← List.range_succ_eq_map, List.length_cons]

theorem rank_map_perm_range (ts : List Nat) (h : ts.Nodup) :
    (ts.map (rankOf ts)).Perm (List.range ts.length) := by
  have hperm : (sortNat ts).Perm ts := sortNat_perm ts
  have hnd : (sortNat ts).Nodup := hperm.symm.nodup h
  have hlt : (sortNat ts).Pairwise (· < ·) :=
    ((sortNat_sorted ts).and hnd).imp (fun hc => lt_of_le_of_ne hc.1 hc.2)
  have heq : (sortNat ts).map (rankOf (sortNat ts)) = List.range (sortNat ts).length :=
    rank_map_sorted _ hlt
  have hcongr : (sortNat ts).map (rankOf ts) = (sortNat ts).map (rankOf (sortNat ts)) :=
    List.map_congr_left (fun x _ => rankOf_perm hperm.symm x)
  have : (ts.map (rankOf ts)).Perm ((sortNat ts).map (rankOf ts)) := (hperm.map _).symm
  rw [hcongr, heq, hperm.length_eq] at this
  exact this

/-- Strict counting: if `Q` covers `P` on `l` and some member satisfies `Q`
but not `P`, the `P`-filter is strictly shorter. -/
theorem filter_length_lt {α : Type} (P Q : α → Bool) :
    ∀ l : List α, (∀ x ∈ l, P x = true → Q x = true) →
    (∃ x ∈ l, Q x = true ∧ P x = false) →
    (l.filter P).length < (l.filter Q).length := by
  intro l
  induction l with
  | nil => rintro _ ⟨x, hx, _⟩; cases hx
  | cons y ys ih =>
    rintro himp ⟨x, hx, hQx, hPx⟩
    have hmono : (ys.filter P).length ≤ (ys.filter Q).length := by
      rw [← List.countP_eq_length_filter, ← List.countP_eq_length_filter]
      exact List.countP_mono_left (fun z hz => himp z (List.mem_cons_of_mem _ hz))
    rcases List.mem_cons.mp hx with rfl | hx2
    · rw [List.filter_cons_of_neg (by simp [hPx]), List.filter_cons_of_pos hQx,
        List.length_cons]
      omega
    · have hlt := ih (fun z hz => himp z (List.mem_cons_of_mem _ hz)) ⟨x, hx2, hQx, hPx⟩
      by_cases hPy : P y = true
      · rw [List.filter_cons_of_pos hPy,
          List.filter_cons_of_pos (himp y (List.mem_cons_self _ _) hPy),
          List.length_cons, List.length_cons]
        omega
      · rw [List.filter_cons_of_neg hPy]
        by_cases hQy : Q y = true
        · rw [List.filter_cons_of_pos hQy, List.length_cons]
          omega
        · rw [List.filter_cons_of_neg hQy]
          exact hlt

/-- A fixed group predicate agrees with the group-of-`x` predicate whenever
`x` itself belongs to the fixed group. -/
theorem inGroup_eq_of_inGroup {cid : Nat} {d st et : String} {x : WLEntry}
    (h : inGroup cid d st et x = true) (z : WLEntry) :
    inGroup x.classroom_id x.date x.start_time x.end_time z = inGroup cid d st et z := by
  obtain ⟨h1, h2, h3, h4⟩ := inGroup_iff.mp h
  rw [h1, h2, h3, h4]

/-- The waitlist-store invariant: keys are distinct and below the counter,
creation stamps are distinct within a group, and every entry's priority is
the count of its group siblings with an earlier creation stamp. -/
structure WLInv (wl : WLDB) : Prop where
  keys_nodup : (wl.entries.map Prod.fst).Nodup
  keys_bound : ∀ p ∈ wl.entries, (p : Nat × WLEntry).1 < wl.next_id
  times_ok : wl.entries.Pairwise (fun a b =>
    inGroup a.2.classroom_id a.2.date a.2.start_time a.2.end_time b.2 = true →
    a.2.created_at ≠ b.2.created_at)
  ranked : ∀ p ∈ wl.entries, (p : Nat × WLEntry).2.priority =
    (wl.entries.filter (fun q =>
      inGroup p.2.classroom_id p.2.date p.2.start_time p.2.end_time q.2 &&
        q.2.created_at < p.2.created_at)).length

theorem resync_mem {cid : Nat} {d st et : String} {l : List (Nat × WLEntry)}
    {p' : Nat × WLEntry} (h : p' ∈ resyncPriorities cid d st et l) :
    ∃ p ∈ l, p' = resyncEntry cid d st et l p := by
  unfold resyncPriorities at h
  obtain ⟨p, hp, he⟩ := List.mem_map.mp h
  exact ⟨p, hp, he.symm⟩

/-- Filters whose predicate ignores the priority field commute with the
re-sync map. -/
theorem filter_resync_length (cid : Nat) (d st et : String)
    (l₁ : List (Nat × WLEntry)) (P : Nat × WLEntry → Bool)
    (hP : ∀ q, P (resyncEntry cid d st et l₁ q) = P q) :
    ((resyncPriorities cid d st et l₁).filter P).length = (l₁.filter P).length := by
  unfold resyncPriorities
  rw [List.filter_map, List.length_map]
  congr 1
  exact List.filter_congr (fun q _ => hP q)

/-- Deleting one key whose entries all lie in group `g` and re-syncing `g`
re-establishes the waitlist invariant. -/
theorem removeAndResync_inv (wid cid : Nat) (d st et : String) (wl : WLDB)
    (hinv : WLInv wl)
    (hgrp : ∀ q ∈ wl.entries, (q : Nat × WLEntry).1 = wid →
      inGroup cid d st et q.2 = true) :
    WLInv (removeAndResync wid cid d st et wl) := by
  have hsub : (wl.entries.filter (fun p => p.1 ≠ wid)).Sublist wl.entries :=
    List.filter_sublist _
  have hkeys : (removeAndResync wid cid d st et wl).entries.map Prod.fst =
      (wl.entries.filter (fun p => p.1 ≠ wid)).map Prod.fst := by
    unfold removeAndResync
    exact resyncPriorities_keys cid d st et _
  constructor
  · rw [hkeys]
    exact (hsub.map Prod.fst).nodup hinv.keys_nodup
  · intro p' hp'
    obtain ⟨p, hp, he⟩ := resync_mem hp'
    rw [he, resyncEntry_fst]
    exact hinv.keys_bound p (hsub.subset hp)
  · unfold removeAndResync
    dsimp only
    unfold resyncPriorities
    rw [List.pairwise_map]
    apply List.Pairwise.imp ?_ (hinv.times_ok.sublist hsub)
    intro a b hab
    rw [inGroup_congr_left (resyncEntry_sameFields cid d st et _ a),
      inGroup_congr_right (resyncEntry_sameFields cid d st et _ b),
      (resyncEntry_sameFields cid d st et _ a).2.2.2.2.2,
      (resyncEntry_sameFields cid d st et _ b).2.2.2.2.2]
    exact hab
  · intro p' hp'
    obtain ⟨p, hp, he⟩ := resync_mem hp'
    have hsf : sameFields p'.2 p.2 := he ▸ resyncEntry_sameFields cid d st et _ p
    -- rewrite the goal's predicate to speak about p's fields
    have hpredeq : ∀ q : Nat × WLEntry,
        (inGroup p'.2.classroom_id p'.2.date p'.2.start_time p'.2.end_time q.2 &&
          decide (q.2.created_at < p'.2.created_at)) =
        (inGroup p.2.classroom_id p.2.date p.2.start_time p.2.end_time q.2 &&
          decide (q.2.created_at < p.2.created_at)) := by
      intro q
      rw [inGroup_congr_left hsf, hsf.2.2.2.2.2]
    have hfiltered : ((removeAndResync wid cid d st et wl).entries.filter
        (fun q => inGroup p'.2.classroom_id p'.2.date p'.2.start_time p'.2.end_time q.2 &&
          q.2.created_at < p'.2.created_at)).length =
        ((wl.entries.filter (fun q => q.1 ≠ wid)).filter
          (fun q => inGroup p.2.classroom_id p.2.date p.2.start_time p.2.end_time q.2 &&
            q.2.created_at < p.2.created_at)).length := by
      unfold removeAndResync
      dsimp only
      rw [List.filter_congr (fun q _ => hpredeq q)]
      apply filter_resync_length
      intro q
      rw [inGroup_congr_right (resyncEntry_sameFields cid d st et _ q),
        (resyncEntry_sameFields cid d st et _ q).2.2.2.2.2]
    rw [hfiltered]
    by_cases hin : inGroup cid d st et p.2 = true
    · -- p is a group member: its priority was just recomputed
      have hpe : p' = (p.1, { p.2 with priority :=
          ((wl.entries.filter (fun q => q.1 ≠ wid)).filter
            (fun q => inGroup cid d st et q.2 && q.2.created_at < p.2.created_at)).length }) := by
        rw [he]
        unfold resyncEntry
        rw [if_pos hin]
      rw [hpe]
      dsimp only
      congr 1
      apply List.filter_congr
      intro q _
      rw [inGroup_eq_of_inGroup hin]
    · -- p is outside the group: its priority and its sibling set are untouched
      have hpe : p' = p := by
        rw [he]
        unfold resyncEntry
        rw [if_neg hin]
      rw [hpe]
      rw [List.filter_filter]
      have hcongr : ∀ q ∈ wl.entries,
          ((inGroup p.2.classroom_id p.2.date p.2.start_time p.2.end_time q.2 &&
            decide (q.2.created_at < p.2.created_at)) && decide (q.1 ≠ wid)) =
          (inGroup p.2.classroom_id p.2.date p.2.start_time p.2.end_time q.2 &&
            decide (q.2.created_at < p.2.created_at)) := by
        intro q hq
        by_cases hA : (inGroup p.2.classroom_id p.2.date p.2.start_time p.2.end_time q.2 &&
            decide (q.2.created_at < p.2.created_at)) = true
        · rw [hA]
          have hgq : inGroup p.2.classroom_id p.2.date p.2.start_time p.2.end_time q.2 =
              true := (Bool.and_eq_true _ _ |>.mp hA).1
          by_cases hk : q.1 = wid
          · exfalso
            apply hin
            have hq2 : inGroup cid d st et q.2 = true := hgrp q hq hk
            rw [← inGroup_eq_of_inGroup hq2 p.2] at hin ⊢
            obtain ⟨h1, h2, h3, h4⟩ := inGroup_iff.mp hgq
            rw [inGroup_iff]
            exact ⟨h1.symm, h2.symm, h3.symm, h4.symm⟩
          · simp [hk]
        · rw [Bool.not_eq_true] at hA
          rw [hA]
          rfl
      rw [List.filter_congr hcongr]
      exact hinv.ranked p (hsub.subset hp)

theorem cancelWaitlistEntry_inv (wid : Nat) (uid : String) (wl : WLDB)
    (hinv : WLInv wl) : WLInv (cancelWaitlistEntry wid uid wl).2 := by
  unfold cancelWaitlistEntry
  cases hl : lookupA wid wl.entries with
  | none => exact hinv
  | some en =>
    dsimp only
    split_ifs with hown
    · exact hinv
    · apply removeAndResync_inv _ _ _ _ _ _ hinv
      intro q hq hqk
      have hq' : (wid, q.2) ∈ wl.entries := by rw [← hqk]; exact hq
      have : q.2 = en := keys_nodup_assoc_unique hinv.keys_nodup hq' (lookupA_mem hl)
      rw [this]
      exact inGroup_self en

theorem createWaitlistEntry_inv (env : Env) (uid : String) (cid : Nat)
    (d st et : String) (resDB : RawResDB) (wl : WLDB) (hinv : WLInv wl)
    (hclock : ∀ p ∈ wl.entries, (p : Nat × WLEntry).2.created_at < env.now) :
    WLInv (createWaitlistEntry env uid cid d st et resDB wl).2 := by
  unfold createWaitlistEntry
  split_ifs with hq hdup
  · exact hinv
  · cases parseDateS d <;> cases parseTimeS st <;> cases parseTimeS et <;> exact hinv
  · cases parseDateS d with
    | none => exact hinv
    | some od =>
      cases parseTimeS st with
      | none => exact hinv
      | some ost =>
        cases parseTimeS et with
        | none => exact hinv
        | some oet =>
          dsimp only
          constructor
          · dsimp only
            rw [List.map_append]
            rw [List.nodup_append]
            refine ⟨hinv.keys_nodup, List.nodup_singleton _, ?_⟩
            intro a ha ha'
            rw [List.map_singleton, List.mem_singleton] at ha'
            subst ha'
            obtain ⟨p, hp, hpk⟩ := List.mem_map.mp ha
            exact absurd hpk (Nat.ne_of_lt (hinv.keys_bound p hp))
          · intro p hp
            dsimp only at hp ⊢
            rcases List.mem_append.mp hp with h1 | h2
            · exact Nat.lt_trans (hinv.keys_bound p h1) (Nat.lt_succ_self _)
            · rw [List.mem_singleton] at h2
              subst h2
              exact Nat.lt_succ_self _
          · dsimp only
            rw [List.pairwise_append]
            refine ⟨hinv.times_ok, List.pairwise_singleton _ _, ?_⟩
            intro a ha b hb
            rw [List.mem_singleton] at hb
            subst hb
            intro _
            exact Nat.ne_of_lt (hclock a ha)
          · intro p hp
            dsimp only at hp ⊢
            rcases List.mem_append.mp hp with h1 | h2
            · -- an old entry: the new one has a later stamp and is not counted
              rw [List.filter_append]
              have hnil : List.filter (fun q =>
                  inGroup p.2.classroom_id p.2.date p.2.start_time p.2.end_time q.2 &&
                    q.2.created_at < p.2.created_at)
                  [(wl.next_id, ⟨uid, cid, d, st, et, env.now,
                    (wl.entries.filter (fun p => inGroup cid d st et p.2)).length⟩)] = [] := by
                rw [List.filter_eq_nil_iff]
                intro a ha
                rw [List.mem_singleton] at ha
                subst ha
                dsimp only
                rw [Bool.and_eq_true]
                rintro ⟨-, habs⟩
                rw [decide_eq_true_eq] at habs
                exact absurd habs (Nat.not_lt.mpr (Nat.le_of_lt (hclock p h1)))
              rw [hnil, List.append_nil]
              exact hinv.ranked p h1
            · -- the new entry: its assigned priority is the group size
              rw [List.mem_singleton] at h2
              subst h2
              dsimp only
              rw [List.filter_append]
              have hnil : List.filter (fun q => inGroup cid d st et q.2 &&
                  q.2.created_at < env.now)
                  [(wl.next_id, ⟨uid, cid, d, st, et, env.now,
                    (wl.entries.filter (fun p => inGroup cid d st et p.2)).length⟩)] = [] := by
                rw [List.filter_eq_nil_iff]
                intro a ha
                rw [List.mem_singleton] at ha
                subst ha
                simp
              rw [hnil, List.append_nil]
              congr 1
              apply List.filter_congr
              intro q hq2
              by_cases hg : inGroup cid d st et q.2 = true
              · rw [hg]
                have := hclock q hq2
                simp [this]
              · rw [Bool.not_eq_true] at hg
                rw [hg]
                rfl

theorem removeAndResync_evolve (wid cid : Nat) (d st et : String) (wl : WLDB) :
    ∀ q' ∈ (removeAndResync wid cid d st et wl).entries,
    ∃ q ∈ wl.entries, (q' : Nat × WLEntry).1 = q.1 ∧ sameFields q'.2 q.2 := by
  intro q' hq'
  unfold removeAndResync at hq'
  dsimp only at hq'
  obtain ⟨q, hq, he⟩ := resync_mem hq'
  refine ⟨q, (List.filter_sublist _).subset hq, ?_, ?_⟩
  · rw [he, resyncEntry_fst]
  · rw [he]
    exact resyncEntry_sameFields cid d st et _ q

theorem cancelWaitlistEntry_evolve (wid : Nat) (uid : String) (wl : WLDB) :
    ∀ q' ∈ (cancelWaitlistEntry wid uid wl).2.entries,
    ∃ q ∈ wl.entries, (q' : Nat × WLEntry).1 = q.1 ∧ sameFields q'.2 q.2 := by
  unfold cancelWaitlistEntry
  cases lookupA wid wl.entries with
  | none => exact fun q' hq' => ⟨q', hq', rfl, sameFields_refl _⟩
  | some en =>
    dsimp only
    split_ifs with hown
    · exact fun q' hq' => ⟨q', hq', rfl, sameFields_refl _⟩
    · exact removeAndResync_evolve wid en.classroom_id en.date en.start_time en.end_time wl

theorem promoteLoop_wl_inv (env : Env) (cid : Nat) (d : String) :
    ∀ (cands : List (Nat × WLEntry)) (s : Sys),
    WLInv s.wl →
    (∀ p ∈ cands, (p : Nat × WLEntry).2.classroom_id = cid ∧ p.2.date = d) →
    (∀ p ∈ cands, ∀ q ∈ s.wl.entries, (q : Nat × WLEntry).1 = p.1 →
      sameFields q.2 p.2) →
    WLInv (promoteLoop env cid d cands s).2.wl := by
  intro cands
  induction cands with
  | nil => intro s h _ _; exact h
  | cons c rest ih =>
    intro s hinv hgrp hflds
    rcases c with ⟨wid, en⟩
    unfold promoteLoop
    split_ifs with hq
    · apply ih
      · exact cancelWaitlistEntry_inv wid en.user_id s.wl hinv
      · exact fun p hp => hgrp p (List.mem_cons_of_mem _ hp)
      · intro p hp q' hq' hk
        obtain ⟨q, hqmem, hkeq, hsf⟩ :=
          cancelWaitlistEntry_evolve wid en.user_id s.wl q' hq'
        exact sameFields_trans hsf
          (hflds p (List.mem_cons_of_mem _ hp) q hqmem (hkeq ▸ hk))
    · dsimp only
      by_cases hcr : (createReservationS env en.user_id cid d en.start_time
          en.end_time none s.res).1.1 = true
      · rw [if_pos hcr]
        apply removeAndResync_inv _ _ _ _ _ _ hinv
        intro q hq2 hk
        have hsf := hflds (wid, en) (List.mem_cons_self _ _) q hq2 hk
        obtain ⟨hgc, hgd⟩ := hgrp (wid, en) (List.mem_cons_self _ _)
        obtain ⟨_, h2, h3, h4, h5, _⟩ := hsf
        rw [inGroup_iff]
        exact ⟨h2.trans hgc, h3.trans hgd, h4, h5⟩
      · rw [if_neg hcr]
        exact ih { s with res := (createReservationS env en.user_id cid d
            en.start_time en.end_time none s.res).2 } hinv
          (fun p hp => hgrp p (List.mem_cons_of_mem _ hp))
          (fun p hp q hq2 hk => hflds p (List.mem_cons_of_mem _ hp) q hq2 hk)

theorem processWL_wl_inv (env : Env) (cid : Nat) (d startS endS : String) (s : Sys)
    (hinv : WLInv s.wl) :
    WLInv (processWaitlistOnReservationCancelled env cid d startS endS s).2.wl := by
  unfold processWaitlistOnReservationCancelled
  cases parseTimeS startS with
  | none => exact hinv
  | some cs =>
    cases parseTimeS endS with
    | none => exact hinv
    | some ce =>
      dsimp only
      apply promoteLoop_wl_inv env cid d _ s hinv
      · intro p hp
        rw [mem_sortCand] at hp
        have hb := (List.mem_filter.mp hp).2
        simp only [Bool.and_eq_true, decide_eq_true_eq] at hb
        exact ⟨hb.1.1, hb.1.2⟩
      · intro p hp q hq hk
        rw [mem_sortCand] at hp
        have hpm := (List.mem_filter.mp hp).1
        have hq' : (p.1, q.2) ∈ s.wl.entries := by rw [← hk]; exact hq
        have : q.2 = p.2 := keys_nodup_assoc_unique hinv.keys_nodup hq' hpm
        rw [this]
        exact sameFields_refl _

/-- Every reachable state satisfies the waitlist invariant. -/
theorem reachable_WLInv : ∀ s : Sys, Reachable s → WLInv s.wl := by
  intro s h
  induction h with
  | init =>
    constructor
    · exact List.nodup_nil
    · intro p hp; cases hp
    · exact List.Pairwise.nil
    · intro p hp; cases hp
  | stepCreateRes env uid cid d sRaw eRaw parts hr ih => exact ih
  | stepCancelRes rid uid hr ih => exact ih
  | stepDeleteRes rid hr ih => exact ih
  | stepCreateWL env uid cid d sRaw eRaw hclock hr ih =>
    exact createWaitlistEntry_inv env uid cid d sRaw eRaw _ _ ih hclock
  | stepCancelWL wid uid hr ih => exact cancelWaitlistEntry_inv wid uid _ ih
  | stepProcessWL env cid d sRaw eRaw hr ih => exact processWL_wl_inv env cid d _ _ _ ih
  | stepNotif ndb hr ih => exact ih

/-- C5 amended: in every reachable state, each waitlist entry's priority
equals the number of its (classroom, date-STRING, start-STRING, end-STRING)
group siblings with an earlier creation stamp — the group comparisons of
`create_waitlist_entry` and the re-sync loops are raw-string equalities, so
two aliases of one interval ("14:0" vs "14:00") lie in different groups —
hence within each exact-string group the priorities are exactly a
permutation of `0..n-1` and increase with creation time; on stores whose
strings are canonically padded the original value-level reading follows. -/
theorem C5_dense_priority_ranking (s : Sys) (hreach : Reachable s) :
    (∀ p ∈ s.wl.entries, (p : Nat × WLEntry).2.priority =
      (s.wl.entries.filter (fun q =>
        inGroup p.2.classroom_id p.2.date p.2.start_time p.2.end_time q.2 &&
          q.2.created_at < p.2.created_at)).length) ∧
    (∀ (cid : Nat) (d st et : String),
      ((s.wl.entries.filter (fun q => inGroup cid d st et q.2)).map
          (fun q => (q : Nat × WLEntry).2.priority)).Perm
        (List.range (s.wl.entries.filter (fun q => inGroup cid d st et q.2)).length)) ∧
    (∀ p q, p ∈ s.wl.entries → q ∈ s.wl.entries →
      inGroup p.2.classroom_id p.2.date p.2.start_time p.2.end_time q.2 = true →
      p.2.created_at < q.2.created_at → p.2.priority < q.2.priority) := by
  have hinv := reachable_WLInv s hreach
  refine ⟨hinv.ranked, ?_, ?_⟩
  · intro cid d st et
    set G := s.wl.entries.filter (fun q => inGroup cid d st et q.2) with hG
    set ts := G.map (fun q => (q : Nat × WLEntry).2.created_at) with hts
    have hmem_group : ∀ p ∈ G, inGroup cid d st et (p : Nat × WLEntry).2 = true := by
      intro p hp
      rw [hG] at hp
      exact (List.mem_filter.mp hp).2
    have hprio : ∀ p ∈ G, (p : Nat × WLEntry).2.priority = rankOf ts p.2.created_at := by
      intro p hp
      have hpmem : p ∈ s.wl.entries := by
        rw [hG] at hp
        exact (List.mem_filter.mp hp).1
      rw [hinv.ranked p hpmem]
      have h1 : s.wl.entries.filter (fun q =>
          inGroup p.2.classroom_id p.2.date p.2.start_time p.2.end_time q.2 &&
            q.2.created_at < p.2.created_at) =
          s.wl.entries.filter (fun q => inGroup cid d st et q.2 &&
            q.2.created_at < p.2.created_at) := by
        apply List.filter_congr
        intro q _
        rw [inGroup_eq_of_inGroup (hmem_group p hp)]
      rw [h1]
      have h2 : s.wl.entries.filter (fun q => inGroup cid d st et q.2 &&
          q.2.created_at < p.2.created_at) =
          (s.wl.entries.filter (fun q => inGroup cid d st et q.2)).filter
            (fun q => decide (q.2.created_at < p.2.created_at)) := by
        rw [List.filter_filter]
        apply List.filter_congr
        intro q _
        rw [Bool.and_comm]
      rw [h2, ← hG]
      unfold rankOf
      rw [hts, List.filter_map, List.length_map]
      rfl
    have hnodupts : ts.Nodup := by
      have hsubG : G.Sublist s.wl.entries := by rw [hG]; exact List.filter_sublist _
      have hpair : G.Pairwise
          (fun a b => (a : Nat × WLEntry).2.created_at ≠ b.2.created_at) := by
        apply List.Pairwise.imp_of_mem ?_ (hinv.times_ok.sublist hsubG)
        intro a b ha hb hR
        exact hR (by rw [inGroup_eq_of_inGroup (hmem_group a ha)]; exact hmem_group b hb)
      rw [hts]
      exact List.pairwise_map.mpr hpair
    have hmapeq : G.map (fun q => (q : Nat × WLEntry).2.priority) = ts.map (rankOf ts) := by
      rw [hts, List.map_map]
      exact List.map_congr_left (fun p hp => hprio p hp)
    rw [hmapeq]
    have hperm := rank_map_perm_range ts hnodupts
    have hlen : ts.length = G.length := by rw [hts, List.length_map]
    rwa [hlen] at hperm
  · intro p q hp hq hpq hlt
    rw [hinv.ranked p hp, hinv.ranked q hq]
    have hq1 : s.wl.entries.filter (fun w =>
        inGroup q.2.classroom_id q.2.date q.2.start_time q.2.end_time w.2 &&
          w.2.created_at < q.2.created_at) =
        s.wl.entries.filter (fun w =>
          inGroup p.2.classroom_id p.2.date p.2.start_time p.2.end_time w.2 &&
            w.2.created_at < q.2.created_at) := by
      apply List.filter_congr
      intro w _
      rw [inGroup_trans_eq hpq w.2]
    rw [hq1]
    apply filter_length_lt
    · intro x _ hPx
      rw [Bool.and_eq_true] at hPx ⊢
      refine ⟨hPx.1, ?_⟩
      have := hPx.2
      rw [decide_eq_true_eq] at this ⊢
      omega
    · refine ⟨p, hp, ?_, ?_⟩
      · rw [Bool.and_eq_true]
        exact ⟨inGroup_self p.2, by rw [decide_eq_true_eq]; exact hlt⟩
      · simp

/-! ## Shape lemmas for the raw-string `create_reservation` -/

/-- Shape of a successful raw-string `createReservationS`: all checks
passed and the record is appended, with its raw strings, under the current
counter. -/
theorem createReservationS_success_shape (env : Env) (uid : String) (cid : Nat)
    (dateS startS endS : String) (parts : Option (List String)) (db : RawResDB)
    (h : (createReservationS env uid cid dateS startS endS parts db).1.1 = true) :
    ∃ d s e, parseDateS dateS = some d ∧ parseTimeS startS = some s ∧
      parseTimeS endS = some e ∧
      isPastDatetime env d s = false ∧ isWithin7Days env d = true ∧
      isValidTimeSlot s e = true ∧ countActiveReservationsS env db uid < 3 ∧
      firstOverQuotaParticipantS env db (cleanParticipants uid (parts.getD [])) = none ∧
      conflictsForS db cid dateS s e = [] ∧
      createReservationS env uid cid dateS startS endS parts db =
        ((true, .created),
         ⟨db.reservations ++
            [(db.next_id, ⟨uid, cid, dateS, startS, endS,
              cleanParticipants uid (parts.getD [])⟩)],
          db.next_id + 1⟩) := by
  unfold createReservationS at h ⊢
  cases hd : parseDateS dateS with
  | none => rw [hd] at h; simp at h
  | some d =>
    cases hs : parseTimeS startS with
    | none => rw [hd, hs] at h; simp at h
    | some s =>
      cases he : parseTimeS endS with
      | none => rw [hd, hs, he] at h; simp at h
      | some e =>
        rw [hd, hs, he] at h
        dsimp only at h ⊢
        refine ⟨d, s, e, rfl, rfl, rfl, ?_⟩
        by_cases h1 : isPastDatetime env d s = true
        · simp [h1] at h
        · rw [Bool.not_eq_true] at h1
          simp only [h1, Bool.false_eq_true, if_false] at h ⊢
          by_cases h2 : isWithin7Days env d = true
          · simp only [h2, Bool.not_true, Bool.false_eq_true, if_false] at h ⊢
            by_cases h3 : isValidTimeSlot s e = true
            · simp only [h3, Bool.not_true, Bool.false_eq_true, if_false] at h ⊢
              by_cases h4 : 3 ≤ countActiveReservationsS env db uid
              · simp [h4] at h
              · simp only [h4, if_false] at h ⊢
                cases h5 : firstOverQuotaParticipantS env db
                    (cleanParticipants uid (parts.getD [])) with
                | some p => rw [h5] at h; simp at h
                | none =>
                  rw [h5] at h
                  dsimp only at h ⊢
                  by_cases h6 : conflictsForS db cid dateS s e = []
                  · refine ⟨trivial, trivial, trivial, Nat.lt_of_not_le h4, rfl, h6, ?_⟩
                    simp [h6]
                  · simp [h6] at h
            · simp [h3] at h
          · simp [h2] at h

/-- Either `createReservationS` succeeds or it leaves the store unchanged. -/
theorem createReservationS_db_or_success (env : Env) (uid : String) (cid : Nat)
    (dateS startS endS : String) (parts : Option (List String)) (db : RawResDB) :
    (createReservationS env uid cid dateS startS endS parts db).1.1 = true ∨
    (createReservationS env uid cid dateS startS endS parts db).2 = db := by
  unfold createReservationS
  cases parseDateS dateS with
  | none => exact Or.inr rfl
  | some d =>
    cases parseTimeS startS with
    | none => exact Or.inr rfl
    | some s =>
      cases parseTimeS endS with
      | none => exact Or.inr rfl
      | some e =>
        dsimp only
        split_ifs <;>
          first
          | exact Or.inr rfl
          | (cases hq : firstOverQuotaParticipantS env db
                (cleanParticipants uid (parts.getD [])) <;> simp [hq])

/-- A failed `createReservationS` leaves the store unchanged. -/
theorem createReservationS_fail_db (env : Env) (uid : String) (cid : Nat)
    (dateS startS endS : String) (parts : Option (List String)) (db : RawResDB)
    (h : (createReservationS env uid cid dateS startS endS parts db).1.1 = false) :
    (createReservationS env uid cid dateS startS endS parts db).2 = db := by
  rcases createReservationS_db_or_success env uid cid dateS startS endS parts db with
    htrue | hdb
  · rw [htrue] at h; cases h
  · exact hdb

/-! ## Claim C1 (corrected): the no-overlap invariant holds per date
string, not per calendar day -/

/-- C1 counterexample: the conflict scan compares the stored date and the
requested date as raw strings, while `strptime` accepts the unpadded alias
"2025-1-15" of "2025-01-15". Starting from the empty store, a booking for
classroom 1 on "2025-01-15" 14:00–15:00 and a second booking for the same
classroom on "2025-1-15" 14:00–15:00 both succeed, leaving two stored
reservations of the same classroom whose dates parse to the same calendar
day and whose intervals coincide — the claimed same-date no-overlap
invariant is false of the program. -/
theorem C1_counterexample :
    (createReservationS ⟨dateToOrdinal 2025 1 15 * 86400, [], []⟩ "alice" 1
        "2025-01-15" "14:00" "15:00" none ⟨[], 1⟩).1 = (true, Msg.created) ∧
    (createReservationS ⟨dateToOrdinal 2025 1 15 * 86400, [], []⟩ "bob" 1
        "2025-1-15" "14:00" "15:00" none
        (createReservationS ⟨dateToOrdinal 2025 1 15 * 86400, [], []⟩ "alice" 1
          "2025-01-15" "14:00" "15:00" none ⟨[], 1⟩).2).1 = (true, Msg.created) ∧
    (createReservationS ⟨dateToOrdinal 2025 1 15 * 86400, [], []⟩ "bob" 1
        "2025-1-15" "14:00" "15:00" none
        (createReservationS ⟨dateToOrdinal 2025 1 15 * 86400, [], []⟩ "alice" 1
          "2025-01-15" "14:00" "15:00" none ⟨[], 1⟩).2).2.reservations =
      [(1, ⟨"alice", 1, "2025-01-15", "14:00", "15:00", []⟩),
       (2, ⟨"bob", 1, "2025-1-15", "14:00", "15:00", []⟩)] ∧
    parseDateS "2025-01-15" = parseDateS "2025-1-15" ∧
    parseDateS "2025-01-15" = some (dateToOrdinal 2025 1 15) ∧
    parseTimeS "14:00" = some ⟨14, 0⟩ ∧ parseTimeS "15:00" = some ⟨15, 0⟩ ∧
    isTimeOverlap ⟨14, 0⟩ ⟨15, 0⟩ ⟨14, 0⟩ ⟨15, 0⟩ = true := by
  decide

/-- An empty raw-string conflict scan means no stored reservation with the
same classroom and the identical date string has a parseable interval
overlapping the request. -/
theorem conflictsForS_nil_no_overlap {db : RawResDB} {cid : Nat} {dateS : String}
    {s e : Time} (h : conflictsForS db cid dateS s e = []) :
    ∀ p ∈ db.reservations, (p : Nat × RawReservation).2.classroom_id = cid →
      p.2.date = dateS → ∀ es ee, parseTimeS p.2.start_time = some es →
      parseTimeS p.2.end_time = some ee → isTimeOverlap s e es ee = false := by
  intro p hp hcls hdate es ee hes hee
  by_contra hov
  rw [Bool.not_eq_false] at hov
  have hmem : (p.2.start_time, p.2.end_time, p.2.user_id) ∈ conflictsForS db cid dateS s e := by
    unfold conflictsForS
    rw [List.mem_filterMap]
    refine ⟨p, hp, ?_⟩
    rw [if_pos ⟨hcls, hdate⟩, hes, hee]
    simp [hov]
  rw [h] at hmem
  cases hmem

/-- The per-pair form of the amended invariant: two stored records sharing
classroom and the identical date string have no overlapping parseable
intervals. -/
def noOverlapPairS (a b : Nat × RawReservation) : Prop :=
  a.2.classroom_id = b.2.classroom_id → a.2.date = b.2.date →
  ∀ s1 e1 s2 e2, parseTimeS a.2.start_time = some s1 →
    parseTimeS a.2.end_time = some e1 → parseTimeS b.2.start_time = some s2 →
    parseTimeS b.2.end_time = some e2 → isTimeOverlap s1 e1 s2 e2 = false

theorem createReservationS_noOverlap (env : Env) (uid : String) (cid : Nat)
    (dateS startS endS : String) (parts : Option (List String)) (db : RawResDB)
    (h : db.reservations.Pairwise noOverlapPairS) :
    (createReservationS env uid cid dateS startS endS parts db).2.reservations.Pairwise
      noOverlapPairS := by
  rcases createReservationS_db_or_success env uid cid dateS startS endS parts db with
    hsucc | hdb
  · obtain ⟨d, s, e, _, hs, he, _, _, _, _, _, hconf, heq⟩ :=
      createReservationS_success_shape env uid cid dateS startS endS parts db hsucc
    rw [heq]
    dsimp only
    rw [List.pairwise_append]
    refine ⟨h, List.pairwise_singleton _ _, ?_⟩
    intro a ha b hb
    rw [List.mem_singleton] at hb
    subst hb
    intro hcls hdate s1 e1 s2 e2 hs1 he1 hs2 he2
    dsimp only at hcls hdate hs2 he2 ⊢
    rw [hs] at hs2
    rw [he] at he2
    cases hs2
    cases he2
    rw [isTimeOverlap_symm]
    exact conflictsForS_nil_no_overlap hconf a ha hcls hdate s1 e1 hs1 he1
  · rw [hdb]
    exact h

theorem cancelReservationS_noOverlap (rid : Nat) (uid : String) (db : RawResDB)
    (h : db.reservations.Pairwise noOverlapPairS) :
    (cancelReservationS rid uid db).2.reservations.Pairwise noOverlapPairS := by
  unfold cancelReservationS
  cases lookupA rid db.reservations with
  | none => exact h
  | some r =>
    dsimp only
    split_ifs with hown
    · exact h
    · exact h.sublist (List.filter_sublist _)

theorem deleteReservationS_noOverlap (rid : Nat) (db : RawResDB)
    (h : db.reservations.Pairwise noOverlapPairS) :
    (deleteReservationS rid db).2.reservations.Pairwise noOverlapPairS := by
  unfold deleteReservationS
  cases lookupA rid db.reservations with
  | none => exact h
  | some r => exact h.sublist (List.filter_sublist _)

theorem promoteLoop_noOverlap (env : Env) (cid : Nat) (d : String) :
    ∀ (cands : List (Nat × WLEntry)) (s : Sys),
    s.res.reservations.Pairwise noOverlapPairS →
    (promoteLoop env cid d cands s).2.res.reservations.Pairwise noOverlapPairS := by
  intro cands
  induction cands with
  | nil => intro s h; exact h
  | cons c rest ih =>
    intro s h
    rcases c with ⟨wid, en⟩
    unfold promoteLoop
    split_ifs with hq
    · exact ih _ h
    · dsimp only
      by_cases hcr : (createReservationS env en.user_id cid d en.start_time
          en.end_time none s.res).1.1 = true
      · rw [if_pos hcr]
        exact createReservationS_noOverlap env en.user_id cid d en.start_time
          en.end_time none s.res h
      · rw [if_neg hcr]
        apply ih
        dsimp only
        rw [createReservationS_fail_db env en.user_id cid d en.start_time
          en.end_time none s.res (by rwa [Bool.not_eq_true] at hcr)]
        exact h

theorem processWL_noOverlap (env : Env) (cid : Nat) (dateS startS endS : String)
    (s : Sys) (h : s.res.reservations.Pairwise noOverlapPairS) :
    (processWaitlistOnReservationCancelled env cid dateS startS endS
      s).2.res.reservations.Pairwise noOverlapPairS := by
  unfold processWaitlistOnReservationCancelled
  cases parseTimeS startS with
  | none => exact h
  | some cs =>
    cases parseTimeS endS with
    | none => exact h
    | some ce => exact promoteLoop_noOverlap env cid dateS _ s h

/-- C1 amended: in every reachable state, no two stored reservations with
the same classroom id and the *identical date string* have overlapping
intervals, and `create_reservation` refuses with the `timeConflict`
message (leaving the store unchanged) whenever some stored reservation of
the same classroom and identical date string overlaps the requested
interval and the request passes the earlier checks. (The conflict scan
compares the raw date strings, so the invariant is keyed by string; on
stores whose date strings are canonically zero-padded — as a well-behaved
client sends — equal calendar days have equal strings and the original
same-day reading follows.) -/
theorem C1_no_overlap_by_date_string :
    (∀ s : Sys, Reachable s → s.res.reservations.Pairwise noOverlapPairS) ∧
    (∀ (env : Env) (uid : String) (cid : Nat) (dateS startS endS : String)
        (parts : Option (List String)) (db : RawResDB) (d : Nat) (s e : Time),
      parseDateS dateS = some d → parseTimeS startS = some s →
      parseTimeS endS = some e →
      isPastDatetime env d s = false → isWithin7Days env d = true →
      isValidTimeSlot s e = true → countActiveReservationsS env db uid < 3 →
      firstOverQuotaParticipantS env db (cleanParticipants uid (parts.getD [])) = none →
      (∃ p ∈ db.reservations, (p : Nat × RawReservation).2.classroom_id = cid ∧
        p.2.date = dateS ∧ ∃ es ee, parseTimeS p.2.start_time = some es ∧
          parseTimeS p.2.end_time = some ee ∧ isTimeOverlap s e es ee = true) →
      (createReservationS env uid cid dateS startS endS parts db).1 =
          (false, .timeConflictS startS endS (conflictsForS db cid dateS s e)) ∧
        conflictsForS db cid dateS s e ≠ [] ∧
        (createReservationS env uid cid dateS startS endS parts db).2 = db) := by
  constructor
  · intro s hreach
    induction hreach with
    | init => exact List.Pairwise.nil
    | stepCreateRes env uid cid dateS startS endS parts hr ih =>
      exact createReservationS_noOverlap env uid cid dateS startS endS parts _ ih
    | stepCancelRes rid uid hr ih => exact cancelReservationS_noOverlap rid uid _ ih
    | stepDeleteRes rid hr ih => exact deleteReservationS_noOverlap rid _ ih
    | stepCreateWL env uid cid dateS startS endS hclock hr ih => exact ih
    | stepCancelWL wid uid hr ih => exact ih
    | stepProcessWL env cid dateS startS endS hr ih =>
      exact processWL_noOverlap env cid _ _ _ _ ih
    | stepNotif ndb hr ih => exact ih
  · intro env uid cid dateS startS endS parts db d s e hd hs he hpast hwin hslot
      hcnt hfq hover
    obtain ⟨p, hp, hcls, hdate, es, ee, hes, hee, hov⟩ := hover
    have hconf : conflictsForS db cid dateS s e ≠ [] := by
      intro hnil
      have := conflictsForS_nil_no_overlap hnil p hp hcls hdate es ee hes hee
      rw [hov] at this
      cases this
    have hres : (createReservationS env uid cid dateS startS endS parts db).1 =
        (false, .timeConflictS startS endS (conflictsForS db cid dateS s e)) := by
      unfold createReservationS
      rw [hd, hs, he]
      simp [hpast, hwin, hslot, Nat.not_le.mpr hcnt, hfq, hconf]
    refine ⟨hres, hconf, ?_⟩
    exact createReservationS_fail_db env uid cid dateS startS endS parts db (by rw [hres])

theorem C1_string_witness :
    ({ res := (createReservationS ⟨dateToOrdinal 2025 1 15 * 86400, [], []⟩ "bob" 1
        "2025-01-15" "15:00" "16:00" none
        (createReservationS ⟨dateToOrdinal 2025 1 15 * 86400, [], []⟩ "alice" 1
          "2025-01-15" "14:00" "15:00" none ⟨[], 1⟩).2).2,
       wl := ⟨[], 1⟩, notif := ⟨[], 1⟩ } : Sys).res.reservations.Pairwise noOverlapPairS ∧
    ((createReservationS ⟨dateToOrdinal 2025 1 15 * 86400, [], []⟩ "bob" 1
        "2025-01-15" "14:00" "16:00" none
        ⟨[(1, ⟨"alice", 1, "2025-01-15", "14:00", "15:00", []⟩)], 2⟩).1 =
      (false, .timeConflictS "14:00" "16:00"
        (conflictsForS ⟨[(1, ⟨"alice", 1, "2025-01-15", "14:00", "15:00", []⟩)], 2⟩ 1
          "2025-01-15" ⟨14, 0⟩ ⟨16, 0⟩)) ∧
      conflictsForS ⟨[(1, ⟨"alice", 1, "2025-01-15", "14:00", "15:00", []⟩)], 2⟩ 1
        "2025-01-15" ⟨14, 0⟩ ⟨16, 0⟩ ≠ [] ∧
      (createReservationS ⟨dateToOrdinal 2025 1 15 * 86400, [], []⟩ "bob" 1
        "2025-01-15" "14:00" "16:00" none
        ⟨[(1, ⟨"alice", 1, "2025-01-15", "14:00", "15:00", []⟩)], 2⟩).2 =
        ⟨[(1, ⟨"alice", 1, "2025-01-15", "14:00", "15:00", []⟩)], 2⟩) :=
  ⟨C1_no_overlap_by_date_string.1 _
     (Reachable.stepCreateRes ⟨dateToOrdinal 2025 1 15 * 86400, [], []⟩ "bob" 1
       "2025-01-15" "15:00" "16:00" none
       (Reachable.stepCreateRes ⟨dateToOrdinal 2025 1 15 * 86400, [], []⟩ "alice" 1
         "2025-01-15" "14:00" "15:00" none Reachable.init)),
   C1_no_overlap_by_date_string.2 ⟨dateToOrdinal 2025 1 15 * 86400, [], []⟩ "bob" 1
     "2025-01-15" "14:00" "16:00" none
     ⟨[(1, ⟨"alice", 1, "2025-01-15", "14:00", "15:00", []⟩)], 2⟩
     (dateToOrdinal 2025 1 15) ⟨14, 0⟩ ⟨16, 0⟩
     (by decide) (by decide) (by decide) (by decide) (by decide) (by decide)
     (by decide) (by decide)
     ⟨(1, ⟨"alice", 1, "2025-01-15", "14:00", "15:00", []⟩), by decide, rfl, rfl,
       ⟨14, 0⟩, ⟨15, 0⟩, by decide, by decide, by decide⟩⟩

/-! ## Claim C4 (corrected): validation order over the raw strings -/

/-- C4 counterexample for clause (g): the conflict scan keys on the raw
date string, while claim C4 requires a `TimeConflict` for any request
overlapping a stored same-classroom same-calendar-date reservation.
With alice's reservation stored under "2025-01-15", bob's request for the
alias "2025-1-15" — the same calendar day, same classroom, identical
14:00–15:00 interval, all earlier checks passing — succeeds with the
creation message instead of failing with `TimeConflict`. -/
theorem C4_counterexample :
    (createReservationS ⟨dateToOrdinal 2025 1 15 * 86400, [], []⟩ "bob" 1
        "2025-1-15" "14:00" "15:00" none
        ⟨[(1, ⟨"alice", 1, "2025-01-15", "14:00", "15:00", []⟩)], 2⟩).1 =
      (true, Msg.created) ∧
    parseDateS "2025-1-15" = some (dateToOrdinal 2025 1 15) ∧
    parseDateS "2025-01-15" = some (dateToOrdinal 2025 1 15) ∧
    parseTimeS "14:00" = some ⟨14, 0⟩ ∧ parseTimeS "15:00" = some ⟨15, 0⟩ ∧
    isTimeOverlap ⟨14, 0⟩ ⟨15, 0⟩ ⟨14, 0⟩ ⟨15, 0⟩ = true ∧
    isPastDatetime ⟨dateToOrdinal 2025 1 15 * 86400, [], []⟩
      (dateToOrdinal 2025 1 15) ⟨14, 0⟩ = false ∧
    isWithin7Days ⟨dateToOrdinal 2025 1 15 * 86400, [], []⟩
      (dateToOrdinal 2025 1 15) = true ∧
    isValidTimeSlot ⟨14, 0⟩ ⟨15, 0⟩ = true := by
  decide

/-- A `some` answer of the raw participant-quota loop is a listed,
registered participant at quota. -/
theorem firstOverQuotaParticipantS_some (env : Env) (db : RawResDB) :
    ∀ (ps : List String) (p : String), firstOverQuotaParticipantS env db ps = some p →
      p ∈ ps ∧ p ∈ env.users ∧ 3 ≤ countActiveReservationsS env db p := by
  intro ps
  induction ps with
  | nil => intro p h; cases h
  | cons q qs ih =>
    intro p h
    unfold firstOverQuotaParticipantS at h
    split_ifs at h with hq
    · have hqp := Option.some.inj h
      subst hqp
      exact ⟨List.mem_cons_self _ _, hq.1, hq.2⟩
    · obtain ⟨h1, h2, h3⟩ := ih p h
      exact ⟨List.mem_cons_of_mem _ h1, h2, h3⟩

/-- Every entry of the raw conflict list comes from a stored reservation
of the requested classroom with the identical date string whose parsed
interval overlaps the request. -/
theorem mem_conflictsForS {db : RawResDB} {cid : Nat} {dateS : String} {s e : Time}
    {c : String × String × String} (hc : c ∈ conflictsForS db cid dateS s e) :
    ∃ p ∈ db.reservations, (p : Nat × RawReservation).2.classroom_id = cid ∧
      p.2.date = dateS ∧ ∃ es ee, parseTimeS p.2.start_time = some es ∧
        parseTimeS p.2.end_time = some ee ∧ isTimeOverlap s e es ee = true ∧
        c = (p.2.start_time, p.2.end_time, p.2.user_id) := by
  unfold conflictsForS at hc
  rw [List.mem_filterMap] at hc
  obtain ⟨p, hp, hpc⟩ := hc
  refine ⟨p, hp, ?_⟩
  by_cases hcd : p.2.classroom_id = cid ∧ p.2.date = dateS
  · rw [if_pos hcd] at hpc
    refine ⟨hcd.1, hcd.2, ?_⟩
    cases hes : parseTimeS p.2.start_time with
    | none => rw [hes] at hpc; simp at hpc
    | some es =>
      cases hee : parseTimeS p.2.end_time with
      | none => rw [hes, hee] at hpc; simp at hpc
      | some ee =>
        rw [hes, hee] at hpc
        dsimp only at hpc
        by_cases hov : isTimeOverlap s e es ee = true
        · rw [if_pos hov] at hpc
          exact ⟨es, ee, rfl, rfl, hov, (Option.some.inj hpc).symm⟩
        · rw [if_neg hov] at hpc; cases hpc
  · rw [if_neg hcd] at hpc; cases hpc

/-- C4 amended: `create_reservation` applies its checks in the fixed
source order — (a) date parse, start parse, end parse (each failure
returning the parse-error message for the offending string), (b) past
date-time, (c) 7-day window, (d) slot alignment, (e) requester quota,
(f) participant quota after deduplication and dropping a self-listed
requester, (g) overlap scan keyed on classroom id and the raw date
STRING (not the parsed calendar day) — the first failing check
determines the result and leaves the store unchanged, each failure
carries a distinct machine-distinguishable message, and the conflict
message enumerates exactly the scan's conflicts, each a stored
same-classroom identical-date-string reservation overlapping the
request. -/
theorem C4_validation_order_str :
    (∀ (env : Env) (uid : String) (cid : Nat) (dateS startS endS : String)
        (parts : Option (List String)) (db : RawResDB),
      parseDateS dateS = none →
      createReservationS env uid cid dateS startS endS parts db =
        ((false, .invalidDateStr dateS), db)) ∧
    (∀ env uid cid dateS startS endS parts db d,
      parseDateS dateS = some d → parseTimeS startS = none →
      createReservationS env uid cid dateS startS endS parts db =
        ((false, .invalidTimeStr startS), db)) ∧
    (∀ env uid cid dateS startS endS parts db d s,
      parseDateS dateS = some d → parseTimeS startS = some s →
      parseTimeS endS = none →
      createReservationS env uid cid dateS startS endS parts db =
        ((false, .invalidTimeStr endS), db)) ∧
    (∀ env uid cid dateS startS endS parts db d s e,
      parseDateS dateS = some d → parseTimeS startS = some s →
      parseTimeS endS = some e → isPastDatetime env d s = true →
      createReservationS env uid cid dateS startS endS parts db =
        ((false, .pastTime), db)) ∧
    (∀ env uid cid dateS startS endS parts db d s e,
      parseDateS dateS = some d → parseTimeS startS = some s →
      parseTimeS endS = some e → isPastDatetime env d s = false →
      isWithin7Days env d = false →
      createReservationS env uid cid dateS startS endS parts db =
        ((false, .outOfWindow), db)) ∧
    (∀ env uid cid dateS startS endS parts db d s e,
      parseDateS dateS = some d → parseTimeS startS = some s →
      parseTimeS endS = some e → isPastDatetime env d s = false →
      isWithin7Days env d = true → isValidTimeSlot s e = false →
      createReservationS env uid cid dateS startS endS parts db =
        ((false, .invalidSlot), db)) ∧
    (∀ env uid cid dateS startS endS parts db d s e,
      parseDateS dateS = some d → parseTimeS startS = some s →
      parseTimeS endS = some e → isPastDatetime env d s = false →
      isWithin7Days env d = true → isValidTimeSlot s e = true →
      3 ≤ countActiveReservationsS env db uid →
      createReservationS env uid cid dateS startS endS parts db =
        ((false, .quotaExceeded), db)) ∧
    (∀ env uid cid dateS startS endS parts db d s e p,
      parseDateS dateS = some d → parseTimeS startS = some s →
      parseTimeS endS = some e → isPastDatetime env d s = false →
      isWithin7Days env d = true → isValidTimeSlot s e = true →
      countActiveReservationsS env db uid < 3 →
      firstOverQuotaParticipantS env db (cleanParticipants uid (parts.getD [])) = some p →
      createReservationS env uid cid dateS startS endS parts db =
          ((false, .participantQuotaExceeded p), db) ∧
        p ∈ cleanParticipants uid (parts.getD []) ∧ p ∈ env.users ∧
        3 ≤ countActiveReservationsS env db p) ∧
    (∀ env uid cid dateS startS endS parts db d s e,
      parseDateS dateS = some d → parseTimeS startS = some s →
      parseTimeS endS = some e → isPastDatetime env d s = false →
      isWithin7Days env d = true → isValidTimeSlot s e = true →
      countActiveReservationsS env db uid < 3 →
      firstOverQuotaParticipantS env db (cleanParticipants uid (parts.getD [])) = none →
      conflictsForS db cid dateS s e ≠ [] →
      createReservationS env uid cid dateS startS endS parts db =
          ((false, .timeConflictS startS endS (conflictsForS db cid dateS s e)), db) ∧
        ∀ c ∈ conflictsForS db cid dateS s e, ∃ p ∈ db.reservations,
          (p : Nat × RawReservation).2.classroom_id = cid ∧ p.2.date = dateS ∧
          ∃ es ee, parseTimeS p.2.start_time = some es ∧
            parseTimeS p.2.end_time = some ee ∧ isTimeOverlap s e es ee = true ∧
            c = (p.2.start_time, p.2.end_time, p.2.user_id)) ∧
    (∀ (ds ts pid rs re : String) (cs : List (String × String × String)),
      [Msg.invalidDateStr ds, Msg.invalidTimeStr ts, Msg.pastTime, Msg.outOfWindow,
       Msg.invalidSlot, Msg.quotaExceeded, Msg.participantQuotaExceeded pid,
       Msg.timeConflictS rs re cs, Msg.created].Nodup) := by
  refine ⟨?_, ?_, ?_, ?_, ?_, ?_, ?_, ?_, ?_, ?_⟩
  · intro env uid cid dateS startS endS parts db hd
    unfold createReservationS
    rw [hd]
  · intro env uid cid dateS startS endS parts db d hd hs
    unfold createReservationS
    rw [hd, hs]
  · intro env uid cid dateS startS endS parts db d s hd hs he
    unfold createReservationS
    rw [hd, hs, he]
  · intro env uid cid dateS startS endS parts db d s e hd hs he hpast
    unfold createReservationS
    rw [hd, hs, he]
    simp [hpast]
  · intro env uid cid dateS startS endS parts db d s e hd hs he hpast hwin
    unfold createReservationS
    rw [hd, hs, he]
    simp [hpast, hwin]
  · intro env uid cid dateS startS endS parts db d s e hd hs he hpast hwin hslot
    unfold createReservationS
    rw [hd, hs, he]
    simp [hpast, hwin, hslot]
  · intro env uid cid dateS startS endS parts db d s e hd hs he hpast hwin hslot hq
    unfold createReservationS
    rw [hd, hs, he]
    simp [hpast, hwin, hslot, hq]
  · intro env uid cid dateS startS endS parts db d s e p hd hs he hpast hwin hslot
      hcnt hfq
    refine ⟨?_, firstOverQuotaParticipantS_some env db _ p hfq⟩
    unfold createReservationS
    rw [hd, hs, he]
    simp [hpast, hwin, hslot, Nat.not_le.mpr hcnt, hfq]
  · intro env uid cid dateS startS endS parts db d s e hd hs he hpast hwin hslot
      hcnt hfq hconf
    refine ⟨?_, fun c hc => mem_conflictsForS hc⟩
    unfold createReservationS
    rw [hd, hs, he]
    simp [hpast, hwin, hslot, Nat.not_le.mpr hcnt, hfq, hconf]
  · intro ds ts pid rs re cs
    simp

theorem C4_str_witness :
    createReservationS ⟨dateToOrdinal 2025 1 15 * 86400, [], []⟩ "u" 1
      "2025-01-30" "14:30" "15:00" none ⟨[], 1⟩ =
      ((false, Msg.outOfWindow), ⟨[], 1⟩) :=
  C4_validation_order_str.2.2.2.2.1 ⟨dateToOrdinal 2025 1 15 * 86400, [], []⟩ "u" 1
    "2025-01-30" "14:30" "15:00" none ⟨[], 1⟩ (dateToOrdinal 2025 1 30)
    ⟨14, 30⟩ ⟨15, 0⟩ (by decide) (by decide) (by decide) (by decide) (by decide)

/-! ## Claim C2 (corrected): promotion matches on the raw date string and
skips the notification for a falsy reservation id -/

/-- C2 counterexample: the waitlist match (`entry["date"] == date`,
waitlist_db.py line 200) compares raw strings. With one waitlist entry
stored under the alias "2025-1-15" — same classroom, same calendar day
and identical interval as the freed "2025-01-15" 14:00–15:00 slot, its
user under quota and its own interval re-validating — promotion returns
`none` and the whole state is unchanged, where the claim promises a
promotion. -/
theorem C2_counterexample :
    processWaitlistOnReservationCancelled ⟨dateToOrdinal 2025 1 15 * 86400, [], []⟩ 1
        "2025-01-15" "14:00" "15:00"
        ⟨⟨[], 1⟩, ⟨[(1, ⟨"bob", 1, "2025-1-15", "14:00", "15:00", 0, 0⟩)], 2⟩, ⟨[], 1⟩⟩ =
      (none,
       ⟨⟨[], 1⟩, ⟨[(1, ⟨"bob", 1, "2025-1-15", "14:00", "15:00", 0, 0⟩)], 2⟩, ⟨[], 1⟩⟩) ∧
    parseDateS "2025-1-15" = parseDateS "2025-01-15" ∧
    parseDateS "2025-01-15" = some (dateToOrdinal 2025 1 15) ∧
    parseTimeS "14:00" = some ⟨14, 0⟩ ∧ parseTimeS "15:00" = some ⟨15, 0⟩ ∧
    isTimeOverlap ⟨14, 0⟩ ⟨15, 0⟩ ⟨14, 0⟩ ⟨15, 0⟩ = true ∧
    countActiveReservationsS ⟨dateToOrdinal 2025 1 15 * 86400, [], []⟩ ⟨[], 1⟩ "bob" < 3 ∧
    (createReservationS ⟨dateToOrdinal 2025 1 15 * 86400, [], []⟩ "bob" 1 "2025-1-15"
        "14:00" "15:00" none ⟨[], 1⟩).1.1 = true := by
  decide

theorem foldl_max_le (k : Nat) : ∀ (xs : List Nat) (acc : Nat), acc ≤ k →
    (∀ x ∈ xs, x ≤ k) → xs.foldl Nat.max acc ≤ k := by
  intro xs
  induction xs with
  | nil => intro acc hacc _; exact hacc
  | cons x xs ih =>
    intro acc hacc hall
    simp only [List.foldl_cons]
    exact ih (Nat.max acc x)
      (Nat.max_le.mpr ⟨hacc, hall x (List.mem_cons_self _ _)⟩)
      (fun y hy => hall y (List.mem_cons_of_mem _ hy))

/-- `max(RESERVATIONS.keys())` after appending a record under a key
dominating every stored key is that new key. -/
theorem maxKey_append_last {α : Type} (l : List (Nat × α)) (k : Nat) (a : α)
    (h : ∀ p ∈ l, (p : Nat × α).1 ≤ k) : maxKey (l ++ [(k, a)]) = some k := by
  cases l with
  | nil => rfl
  | cons p l' =>
    unfold maxKey
    simp only [List.cons_append, List.map_cons, List.map_append, List.map_nil,
      List.foldl_append, List.foldl_cons, List.foldl_nil]
    congr 1
    exact Nat.max_eq_right (foldl_max_le k (l'.map Prod.fst) p.1
      (h p (List.mem_cons_self _ _))
      (fun x hx => by
        rw [List.mem_map] at hx
        obtain ⟨q, hq, hqx⟩ := hx
        rw [← hqx]
        exact h q (List.mem_cons_of_mem _ hq)))

/-- C2 amended: when the raw-string match snapshot holds exactly one
entry — same classroom, *identical date string* as the freed slot, parsed
interval overlapping — whose user is under quota and whose own full
interval re-validates, promotion books that interval under the store's
counter, removes the entry (re-syncing its group), notifies the promoted
user against the new largest reservation id (nonzero here since every
key sits below the positive counter; a zero id would be skipped as
Python-falsy), and returns the entry's summary; when the snapshot is
empty it returns `none` and the whole state is unchanged. -/
theorem C2_promotion_on_cancel_str :
    (∀ (env : Env) (cid : Nat) (d startS endS : String) (s : Sys)
        (cs ce : Time) (wid : Nat) (en : WLEntry),
      parseTimeS startS = some cs → parseTimeS endS = some ce →
      wlMatching s.wl cid d cs ce = [(wid, en)] →
      countActiveReservationsS env s.res en.user_id < 3 →
      (createReservationS env en.user_id cid d en.start_time en.end_time none s.res).1.1
        = true →
      (∀ p ∈ s.res.reservations, (p : Nat × RawReservation).1 < s.res.next_id) →
      0 < s.res.next_id →
      processWaitlistOnReservationCancelled env cid d startS endS s =
          (some ⟨en.user_id, cid, d, en.start_time, en.end_time⟩,
           { res := ⟨s.res.reservations ++
               [(s.res.next_id, ⟨en.user_id, cid, d, en.start_time, en.end_time, []⟩)],
               s.res.next_id + 1⟩,
             wl := removeAndResync wid cid d en.start_time en.end_time s.wl,
             notif := createNotification env en.user_id s.res.next_id
               (mkPromoMsg (classroomName env cid) d en.start_time en.end_time)
               s.notif }) ∧
        ∀ p ∈ (removeAndResync wid cid d en.start_time en.end_time s.wl).entries,
          (p : Nat × WLEntry).1 ≠ wid) ∧
    (∀ (env : Env) (cid : Nat) (d startS endS : String) (s : Sys) (cs ce : Time),
      parseTimeS startS = some cs → parseTimeS endS = some ce →
      wlMatching s.wl cid d cs ce = [] →
      processWaitlistOnReservationCancelled env cid d startS endS s = (none, s)) := by
  constructor
  · intro env cid d startS endS s cs ce wid en hcs hce hmatch hcnt hsucc hkeys hpos
    obtain ⟨dd, ss, ee, hd, hs, he, _, _, _, _, _, hconf, heq⟩ :=
      createReservationS_success_shape env en.user_id cid d en.start_time en.end_time
        none s.res hsucc
    constructor
    · unfold processWaitlistOnReservationCancelled
      rw [hcs, hce]
      dsimp only
      rw [hmatch]
      have hsort : sortCand [(wid, en)] = [(wid, en)] := rfl
      rw [hsort]
      unfold promoteLoop
      rw [if_neg (Nat.not_le.mpr hcnt)]
      dsimp only
      rw [heq]
      dsimp only
      rw [maxKey_append_last s.res.reservations s.res.next_id _
        (fun p hp => Nat.le_of_lt (hkeys p hp))]
      dsimp only
      rw [if_pos (Nat.pos_iff_ne_zero.mp hpos)]
      rfl
    · intro p hp hcontra
      have hmem : p.1 ∈ (resyncPriorities cid d en.start_time en.end_time
          (s.wl.entries.filter (fun q => q.1 ≠ wid))).map Prod.fst :=
        List.mem_map_of_mem Prod.fst hp
      rw [resyncPriorities_keys, List.mem_map] at hmem
      obtain ⟨q, hq, hq1⟩ := hmem
      rw [List.mem_filter] at hq
      exact (of_decide_eq_true hq.2) (hq1.trans hcontra)
  · intro env cid d startS endS s cs ce hcs hce hmatch
    unfold processWaitlistOnReservationCancelled
    rw [hcs, hce]
    dsimp only
    rw [hmatch]
    rfl

theorem C2_str_witness :
    (processWaitlistOnReservationCancelled ⟨dateToOrdinal 2025 1 15 * 86400, [], []⟩ 1
        "2025-01-15" "14:00" "15:00"
        ⟨⟨[], 1⟩, ⟨[(1, ⟨"bob", 1, "2025-01-15", "14:00", "15:00", 0, 0⟩)], 2⟩, ⟨[], 1⟩⟩ =
        (some ⟨"bob", 1, "2025-01-15", "14:00", "15:00"⟩,
         { res := ⟨[(1, ⟨"bob", 1, "2025-01-15", "14:00", "15:00", []⟩)], 2⟩,
           wl := removeAndResync 1 1 "2025-01-15" "14:00" "15:00"
             ⟨[(1, ⟨"bob", 1, "2025-01-15", "14:00", "15:00", 0, 0⟩)], 2⟩,
           notif := createNotification ⟨dateToOrdinal 2025 1 15 * 86400, [], []⟩ "bob" 1
             (mkPromoMsg (classroomName ⟨dateToOrdinal 2025 1 15 * 86400, [], []⟩ 1)
               "2025-01-15" "14:00" "15:00") ⟨[], 1⟩ }) ∧
      ∀ p ∈ (removeAndResync 1 1 "2025-01-15" "14:00" "15:00"
          ⟨[(1, ⟨"bob", 1, "2025-01-15", "14:00", "15:00", 0, 0⟩)], 2⟩).entries,
        (p : Nat × WLEntry).1 ≠ 1) ∧
    processWaitlistOnReservationCancelled ⟨dateToOrdinal 2025 1 15 * 86400, [], []⟩ 1
        "2025-01-15" "14:00" "15:00" ⟨⟨[], 5⟩, ⟨[], 3⟩, ⟨[], 1⟩⟩ =
      (none, ⟨⟨[], 5⟩, ⟨[], 3⟩, ⟨[], 1⟩⟩) :=
  ⟨C2_promotion_on_cancel_str.1 ⟨dateToOrdinal 2025 1 15 * 86400, [], []⟩ 1
     "2025-01-15" "14:00" "15:00"
     ⟨⟨[], 1⟩, ⟨[(1, ⟨"bob", 1, "2025-01-15", "14:00", "15:00", 0, 0⟩)], 2⟩, ⟨[], 1⟩⟩
     ⟨14, 0⟩ ⟨15, 0⟩ 1 ⟨"bob", 1, "2025-01-15", "14:00", "15:00", 0, 0⟩
     (by decide) (by decide) (by decide) (by decide) (by decide) (by decide) (by decide),
   C2_promotion_on_cancel_str.2 ⟨dateToOrdinal 2025 1 15 * 86400, [], []⟩ 1
     "2025-01-15" "14:00" "15:00" ⟨⟨[], 5⟩, ⟨[], 3⟩, ⟨[], 1⟩⟩ ⟨14, 0⟩ ⟨15, 0⟩
     (by decide) (by decide) (by decide)⟩

/-! ## Claim C5 (corrected): the ranking is dense per exact-string group,
not per parsed-interval group -/

/-- C5 counterexample: the priority group comparisons
(waitlist_db.py lines 82-95) are raw-string equalities, while `_parse_time`
accepts the unpadded alias "14:0" of "14:00". Starting from an empty
waitlist, user "a" waitlists classroom 1 on "2025-01-15" at "14:0"–"15:00"
and user "b" later waitlists the same classroom, date and parsed interval
as "14:00"–"15:00": both entries get priority 0, so under the claim's
(classroom, date, start, end)-value grouping the group's priorities are
[0, 0] — not the dense ranking [0, 1] the claim requires. -/
theorem C5_counterexample :
    ((createWaitlistEntry ⟨1, [], []⟩ "b" 1 "2025-01-15" "14:00" "15:00" ⟨[], 1⟩
        (createWaitlistEntry ⟨0, [], []⟩ "a" 1 "2025-01-15" "14:0" "15:00" ⟨[], 1⟩
          ⟨[], 1⟩).2).2).entries.map (fun p => (p : Nat × WLEntry).2.priority) =
      [0, 0] ∧
    ((createWaitlistEntry ⟨1, [], []⟩ "b" 1 "2025-01-15" "14:00" "15:00" ⟨[], 1⟩
        (createWaitlistEntry ⟨0, [], []⟩ "a" 1 "2025-01-15" "14:0" "15:00" ⟨[], 1⟩
          ⟨[], 1⟩).2).2).entries.map (fun p => (p : Nat × WLEntry).2.created_at) =
      [0, 1] ∧
    ((createWaitlistEntry ⟨1, [], []⟩ "b" 1 "2025-01-15" "14:00" "15:00" ⟨[], 1⟩
        (createWaitlistEntry ⟨0, [], []⟩ "a" 1 "2025-01-15" "14:0" "15:00" ⟨[], 1⟩
          ⟨[], 1⟩).2).2).entries.map
        (fun p => ((p : Nat × WLEntry).2.classroom_id, p.2.date)) =
      [(1, "2025-01-15"), (1, "2025-01-15")] ∧
    parseTimeS "14:0" = parseTimeS "14:00" ∧
    parseTimeS "14:0" = some ⟨14, 0⟩ ∧ parseTimeS "15:00" = some ⟨15, 0⟩ := by
  decide

theorem C5_str_witness :
    ((((⟨⟨[], 1⟩,
        ⟨[(1, ⟨"a", 1, "2025-01-15", "14:00", "15:00", 0, 0⟩),
          (2, ⟨"b", 1, "2025-01-15", "14:00", "15:00", 1, 1⟩)], 3⟩,
        ⟨[], 1⟩⟩ : Sys)).wl.entries.filter
          (fun q => inGroup 1 "2025-01-15" "14:00" "15:00" q.2)).map
        (fun q => (q : Nat × WLEntry).2.priority)) = [0, 1] ∧
    ((((⟨⟨[], 1⟩,
        ⟨[(1, ⟨"a", 1, "2025-01-15", "14:00", "15:00", 0, 0⟩),
          (2, ⟨"b", 1, "2025-01-15", "14:00", "15:00", 1, 1⟩)], 3⟩,
        ⟨[], 1⟩⟩ : Sys)).wl.entries.filter
          (fun q => inGroup 1 "2025-01-15" "14:00" "15:00" q.2)).map
        (fun q => (q : Nat × WLEntry).2.priority)).Perm (List.range 2) := by
  refine ⟨by decide, ?_⟩
  have hreach : Reachable (⟨⟨[], 1⟩,
      ⟨[(1, ⟨"a", 1, "2025-01-15", "14:00", "15:00", 0, 0⟩),
        (2, ⟨"b", 1, "2025-01-15", "14:00", "15:00", 1, 1⟩)], 3⟩,
      ⟨[], 1⟩⟩ : Sys) := by
    exact Reachable.stepCreateWL ⟨1, [], []⟩ "b" 1 "2025-01-15" "14:00" "15:00"
      (by decide)
      (Reachable.stepCreateWL ⟨0, [], []⟩ "a" 1 "2025-01-15" "14:00" "15:00"
        (by decide) Reachable.init)
  exact (C5_dense_priority_ranking _ hreach).2.1 1 "2025-01-15" "14:00" "15:00"

end AdminCompetition
